import Mathlib

/-!
Verification of the gpro CAM toolpath planner and G-code emitter.

Each Python module of the planner core is shallowly embedded in Lean:
pure numeric functions become functions over `ℚ` (or `ℝ` where the source
uses transcendental functions), emitted G-code lines become `String`s
built by the same formatting rules, and list-building loops become
structural recursions.  The embeddings follow the source files under
`src/` function by function; deviations are noted in doc comments.
-/

namespace Gpro

/-! ## Multi-pass depth calculation (src/src/utils/multipass.py) -/

namespace Multipass

/-- `calculate_num_passes(total_depth, pass_depth)`:
`if pass_depth <= 0: return 1` else `max(1, math.ceil(total_depth / pass_depth))`. -/
def calculate_num_passes (total_depth pass_depth : ℚ) : ℤ :=
  if pass_depth ≤ 0 then 1 else max 1 ⌈total_depth / pass_depth⌉

/-- `iter_passes(total_depth, pass_depth)`: yields
`(i, (i + 1) * per_pass, per_pass)` for `i in range(num_passes)` with
`per_pass = total_depth / num_passes`. -/
def iter_passes (total_depth pass_depth : ℚ) : List (ℕ × ℚ × ℚ) :=
  let num_passes := (calculate_num_passes total_depth pass_depth).toNat
  let per_pass := total_depth / (num_passes : ℚ)
  (List.range num_passes).map fun i => (i, ((i : ℚ) + 1) * per_pass, per_pass)

/-- `calculate_pass_depths(total_depth, pass_depth)`: the list
`[i * actual_pass_depth for i in range(1, num_passes + 1)]` of cumulative
depths, with `actual_pass_depth = total_depth / num_passes`. -/
def calculate_pass_depths (total_depth pass_depth : ℚ) : List ℚ :=
  let num_passes := (calculate_num_passes total_depth pass_depth).toNat
  let actual_pass_depth := total_depth / (num_passes : ℚ)
  (List.range' 1 num_passes).map fun i => (i : ℚ) * actual_pass_depth

end Multipass

/-! ## Tube void filtering (src/src/tube_void_checker.py) -/

namespace TubeVoid

/-- `calculate_void_bounds(outer_width, outer_height, wall_thickness)`:
`(wall, wall, outer_width - wall, outer_height - wall)`. -/
def calculate_void_bounds {α : Type} [Field α] (outer_width outer_height wall_thickness : α) :
    α × α × α × α :=
  (wall_thickness, wall_thickness, outer_width - wall_thickness, outer_height - wall_thickness)

/-- `point_in_void(x, y, void_bounds, tool_radius)`: the conjunction of the four
strict comparisons `x - r > x_min`, `x + r < x_max`, `y - r > y_min`, `y + r < y_max`. -/
def point_in_void {α : Type} [LinearOrderedField α]
    (x y : α) (void_bounds : α × α × α × α) (tool_radius : α) : Prop :=
  let (void_x_min, void_y_min, void_x_max, void_y_max) := void_bounds
  x - tool_radius > void_x_min ∧
  x + tool_radius < void_x_max ∧
  y - tool_radius > void_y_min ∧
  y + tool_radius < void_y_max

instance (x y : ℚ) (vb : ℚ × ℚ × ℚ × ℚ) (r : ℚ) : Decidable (point_in_void x y vb r) := by
  unfold point_in_void; infer_instance

/-- `circle_in_void(center_x, center_y, diameter, void_bounds, tool_diameter)`:
uses `cut_outer_radius = diameter / 2` as the extent (the `tool_diameter`
argument is not used by the source either). -/
def circle_in_void {α : Type} [LinearOrderedField α]
    (center_x center_y diameter : α) (void_bounds : α × α × α × α) (_tool_diameter : α) : Prop :=
  point_in_void center_x center_y void_bounds (diameter / 2)

/-- `hexagon_in_void(center_x, center_y, flat_to_flat, void_bounds, tool_diameter)`:
uses `circumradius = flat_to_flat / math.sqrt(3)` as the extent. -/
def hexagon_in_void (center_x center_y flat_to_flat : ℝ)
    (void_bounds : ℝ × ℝ × ℝ × ℝ) (_tool_diameter : ℝ) : Prop :=
  point_in_void center_x center_y void_bounds (flat_to_flat / Real.sqrt 3)

/-- `filter_drill_points(points, void_bounds, tool_diameter)`: splits the point
list into `(valid, skipped)` with `tool_radius = tool_diameter / 2`; order of
each output list follows the input order as in the source loop. -/
def filter_drill_points (points : List (ℚ × ℚ)) (void_bounds : ℚ × ℚ × ℚ × ℚ)
    (tool_diameter : ℚ) : List (ℚ × ℚ) × List (ℚ × ℚ) :=
  let tool_radius := tool_diameter / 2
  (points.filter fun p => ¬ point_in_void p.1 p.2 void_bounds tool_radius,
   points.filter fun p => point_in_void p.1 p.2 void_bounds tool_radius)

end TubeVoid

/-! ## Lead-in geometry (src/src/utils/lead_in.py) -/

namespace LeadIn

/-- `MIN_HELIX_RADIUS = 0.05`. -/
def MIN_HELIX_RADIUS : ℚ := 1/20

/-- `calculate_lead_in_distance(ramp_angle, pass_depth)`.  The source computes
`pass_depth / math.tan(math.radians(ramp_angle))` in the positive branch; the
transcendental `tan(radians(·))` is abstracted as the function argument
`tanRad`, which the source only ever applies in that branch. -/
def calculate_lead_in_distance (tanRad : ℚ → ℚ) (ramp_angle pass_depth : ℚ) : ℚ :=
  if ramp_angle ≤ 0 ∨ pass_depth ≤ 0 then 1/4
  else pass_depth / tanRad ramp_angle

/-- `calculate_helix_radius_for_circle(cut_radius, tool_diameter, clearance)`:
returns `none` when too small, otherwise
`min(cut_radius - clearance, tool_radius + clearance)`. -/
def calculate_helix_radius_for_circle (cut_radius tool_diameter clearance : ℚ) : Option ℚ :=
  let tool_radius := tool_diameter / 2
  let max_helix_radius := cut_radius - clearance
  if max_helix_radius < MIN_HELIX_RADIUS then none
  else
    let helix_radius := min max_helix_radius (tool_radius + clearance)
    if helix_radius < MIN_HELIX_RADIUS then none else some helix_radius

/-- Python truthiness of the optional `helix_radius` value
(`if ... and helix_radius:`): `None` and `0.0` are falsy. -/
def helixTruthy : Option ℚ → Bool
  | none => false
  | some r => decide (r ≠ 0)

end LeadIn

/-! ## Effective lead-in resolution (src/src/gcode_generator.py) -/

namespace Resolver

/-- `WebGCodeGenerator._determine_effective_lead_in(lead_in_type, helix_radius,
shape_desc)`: when helical was requested but no helix radius is available,
appends the fallback warning to `self.warnings` and downgrades to ramp.
The warnings list is threaded explicitly. -/
def determine_effective_lead_in (lead_in_type : String) (helix_radius : Option ℚ)
    (shape_desc : String) (warnings : List String) :
    (String × Option ℚ) × List String :=
  if lead_in_type = "helical" ∧ helix_radius = none then
    (("ramp", none), warnings ++ [shape_desc ++ " too small for helical lead-in, using ramp"])
  else ((lead_in_type, helix_radius), warnings)

/-- The lead-in kind finally stored in the `LeadInConfig` by
`_circle_to_path_config` (src/src/gcode_generator.py lines 425-444): the
config starts as `'none'`, becomes `'helical'` when the effective type is
helical with a truthy radius, and `'ramp'` when the effective type is ramp
and `self.lead_in_distance > 0`. -/
def circle_config_lead_in_kind (effective_lead_in_type : String)
    (helix_radius : Option ℚ) (lead_in_distance : ℚ) : String :=
  if effective_lead_in_type = "helical" ∧ LeadIn.helixTruthy helix_radius then "helical"
  else if effective_lead_in_type = "ramp" ∧ 0 < lead_in_distance then "ramp"
  else "none"

end Resolver

/-! ## G-code formatting (src/src/utils/gcode_format.py) -/

namespace Fmt

/-- Decimal digits of a natural number (most significant first), fuel-indexed;
`fuel = n + 1` always suffices.  Models Python's decimal `str(int)`. -/
def natDigitsAux : ℕ → ℕ → List Char → List Char
  | 0, _, acc => acc
  | fuel+1, n, acc =>
    let d := Char.ofNat (48 + n % 10)
    if n < 10 then d :: acc else natDigitsAux fuel (n / 10) (d :: acc)

/-- Python `str(n)` for a non-negative integer. -/
def natStr (n : ℕ) : String := ⟨natDigitsAux (n + 1) n []⟩

/-- Left-pad a digit list with `'0'` to the given width. -/
def padZeros (s : List Char) (width : ℕ) : List Char :=
  List.replicate (width - s.length) '0' ++ s

/-- Round to the nearest integer, ties to even — the rounding of Python's
fixed-point float formatting, idealised to exact rationals. -/
def roundHalfEven (x : ℚ) : ℤ :=
  let f := ⌊x⌋
  if x - f < 1/2 then f
  else if (1 : ℚ)/2 < x - f then f + 1
  else if 2 ∣ f then f else f + 1

/-- `format_coordinate(value, precision)`: Python `f"{value:.{precision}f}"`,
idealised to exact rational rounding (the claims only exercise values that
are exact at the given precision, where the two agree). -/
def format_coordinate (value : ℚ) (precision : ℕ) : String :=
  let n := roundHalfEven (value * (10 : ℚ) ^ precision)
  let m := n.natAbs
  let intPart := natStr (m / 10 ^ precision)
  let fracPart : String := ⟨padZeros (natStr (m % 10 ^ precision)).data precision⟩
  (if value < 0 then "-" else "") ++ intPart ++ "." ++ fracPart

/-- One optional `"{tag}{coord}"` token of a move command. -/
def optTok (tag : String) (v : Option ℚ) (precision : ℕ) : List String :=
  match v with
  | none => []
  | some v => [tag ++ format_coordinate v precision]

/-- `generate_rapid_move(x, y, z)`: `"G00"` plus the present coordinates,
joined by single spaces. -/
def generate_rapid_move (x y z : Option ℚ) : String :=
  String.intercalate " " (["G00"] ++ optTok "X" x 4 ++ optTok "Y" y 4 ++ optTok "Z" z 4)

/-- `generate_linear_move(x, y, z, feed)`. -/
def generate_linear_move (x y z feed : Option ℚ) : String :=
  String.intercalate " "
    (["G01"] ++ optTok "X" x 4 ++ optTok "Y" y 4 ++ optTok "Z" z 4 ++ optTok "F" feed 1)

/-- `generate_arc_move(direction, x, y, i, j, feed, z)`: `X Y [Z] I J [F]`. -/
def generate_arc_move (direction : String) (x y i j : ℚ)
    (feed : Option ℚ) (z : Option ℚ) : String :=
  String.intercalate " "
    ([direction, "X" ++ format_coordinate x 4, "Y" ++ format_coordinate y 4] ++
     optTok "Z" z 4 ++
     ["I" ++ format_coordinate i 4, "J" ++ format_coordinate j 4] ++
     optTok "F" feed 1)

/-- `generate_subroutine_call(file_path, loop_count)`:
`f"M98 (-{file_path}) L{loop_count}"`. -/
def generate_subroutine_call (file_path : String) (loop_count : ℕ) : String :=
  "M98 (-" ++ file_path ++ ") L" ++ natStr loop_count

/-- `generate_subroutine_end()`: `["M99", "%"]`. -/
def generate_subroutine_end : List String := ["M99", "%"]

/-- Python `path.replace('/', '\\')` — a single-character replacement is a
character map. -/
def replaceSlash (s : String) : String :=
  ⟨s.data.map fun c => if c = '/' then '\\' else c⟩

end Fmt

/-! ## Subroutine numbering and paths (src/src/utils/subroutine_generator.py) -/

namespace Subr

/-- `SUBROUTINE_RANGES.get(operation_type, (1000, 1099))`. -/
def SUBROUTINE_RANGES (operation_type : String) : ℕ × ℕ :=
  if operation_type = "drill" then (1000, 1099)
  else if operation_type = "circular" then (1100, 1199)
  else if operation_type = "hexagonal" then (1200, 1299)
  else if operation_type = "line" then (1300, 1399)
  else (1000, 1099)

/-- The `for num in range(start, end + 1): if num not in existing: return num`
loop, fuel-indexed by the number of remaining candidates. -/
def scanFree (existing : List ℕ) : ℕ → ℕ → Option ℕ
  | _, 0 => none
  | start, fuel+1 => if start ∈ existing then scanFree existing (start + 1) fuel else some start

/-- `get_next_subroutine_number(operation_type, existing)`: first free number
in the kind's range, `end + 1` when the range is exhausted. -/
def get_next_subroutine_number (operation_type : String) (existing : List ℕ) : ℕ :=
  let r := SUBROUTINE_RANGES operation_type
  match scanFree existing r.1 (r.2 + 1 - r.1) with
  | some n => n
  | none => r.2 + 1

/-- The generator's allocation discipline: each allocation calls
`get_next_subroutine_number` and appends the result to
`self.used_subroutine_numbers` (src/src/gcode_generator.py). -/
def allocate_subroutine_numbers : List String → List ℕ → List (String × ℕ)
  | [], _ => []
  | k :: ks, used =>
    let n := get_next_subroutine_number k used
    (k, n) :: allocate_subroutine_numbers ks (used ++ [n])

/-- One generation allocating `d` drill, `c` circular, `h` hexagonal and `l`
line subroutines, in the order `generate()` emits them. -/
def generation_numbers (d c h l : ℕ) : List (String × ℕ) :=
  allocate_subroutine_numbers
    (List.replicate d "drill" ++ List.replicate c "circular" ++
     List.replicate h "hexagonal" ++ List.replicate l "line") []

/-- `build_subroutine_path(base_path, project_name, subroutine_number)`:
`f"{base_path}\\{project_name}\\{subroutine_number}.nc"` followed by
`.replace('/', '\\')`. -/
def build_subroutine_path (base_path project_name : String) (subroutine_number : ℕ) : String :=
  Fmt.replaceSlash
    (base_path ++ "\\" ++ project_name ++ "\\" ++ Fmt.natStr subroutine_number ++ ".nc")

end Subr

/-! ## Drilling emission (src/src/utils/subroutine_generator.py,
src/src/gcode_generator.py)

The drill emitters append G-code strings; here each emitted line is kept as a
structured command (`DrillCmd`) whose rendered form (`DrillCmd.emit`) is the
source's f-string, so that the Z motion the lines encode can be interpreted. -/

namespace Drill

/-- One emitted line of the drilling code paths. -/
inductive DrillCmd where
  /-- `G00 Z{z}` -/
  | rapidZ (z : ℚ)
  /-- `G00 X{x} Y{y} Z{z}` -/
  | rapidXY (x y z : ℚ)
  /-- `G00 X{v}` -/
  | rapidX (v : ℚ)
  /-- `G00 Y{v}` -/
  | rapidY (v : ℚ)
  /-- `G01 Z{z} F{feed}` -/
  | plungeZ (z feed : ℚ)
  /-- `G91` -/
  | g91
  /-- `G90` -/
  | g90
  deriving DecidableEq

/-- The G-code string each command renders to, matching the source f-strings. -/
def DrillCmd.emit : DrillCmd → String
  | .rapidZ z => Fmt.generate_rapid_move none none (some z)
  | .rapidXY x y z => Fmt.generate_rapid_move (some x) (some y) (some z)
  | .rapidX v => Fmt.generate_rapid_move (some v) none none
  | .rapidY v => Fmt.generate_rapid_move none (some v) none
  | .plungeZ z feed => Fmt.generate_linear_move none none (some z) (some feed)
  | .g91 => "G91"
  | .g90 => "G90"

/-- Machine Z state: `(relative mode, current z)` under G90/G91 semantics. -/
def stepZ (st : Bool × ℚ) : DrillCmd → Bool × ℚ
  | .g91 => (true, st.2)
  | .g90 => (false, st.2)
  | .rapidZ z => (st.1, if st.1 then st.2 + z else z)
  | .rapidXY _ _ z => (st.1, if st.1 then st.2 + z else z)
  | .plungeZ z _ => (st.1, if st.1 then st.2 + z else z)
  | .rapidX _ => st
  | .rapidY _ => st

/-- Final state after executing a command list. -/
def runZ (st : Bool × ℚ) (cmds : List DrillCmd) : Bool × ℚ :=
  cmds.foldl stepZ st

/-- The Z coordinate reached after each successive command. -/
def zTrace (st : Bool × ℚ) : List DrillCmd → List ℚ
  | [] => []
  | c :: cs => (stepZ st c).2 :: zTrace (stepZ st c) cs

/-- The peck loop of `generate_peck_drill_subroutine`: for each cumulative
depth `p`, `G01 Z{-(p - current_depth)} F{plunge_rate}` then `G00 Z{p}`,
with `current_depth` reset to `0` after the full retract. -/
def peckLines (plunge_rate : ℚ) : List ℚ → ℚ → List DrillCmd
  | [], _ => []
  | p :: ps, current_depth =>
    .plungeZ (-(p - current_depth)) plunge_rate :: .rapidZ p :: peckLines plunge_rate ps 0

/-- Body of `generate_peck_drill_subroutine(pecks, plunge_rate, travel_height,
axis, spacing)` (before `generate_subroutine_end` is appended):
`G00 Z0; G91;` peck cycle; `G00 Z{travel_height}`; rapid translate along the
pattern axis; `G90`. -/
def generate_peck_drill_subroutine (pecks : List ℚ) (plunge_rate travel_height : ℚ)
    (axis : String) (spacing : ℚ) : List DrillCmd :=
  [.rapidZ 0, .g91] ++ peckLines plunge_rate pecks 0 ++
  [.rapidZ travel_height,
   if axis.toLower = "x" then .rapidX spacing else .rapidY spacing,
   .g90]

/-- The per-peck block of `_generate_drill_inline`: `G01 Z{-peck} F`, retract
`G00 Z{safety_height}`, and a re-approach `G00 Z0` unless this is the last
peck (`peck_depth < pecks[-1]`). -/
def inlinePeckBlock (pecks : List ℚ) (plunge_rate safety_height : ℚ) : List DrillCmd :=
  pecks.flatMap fun p =>
    [.plungeZ (-p) plunge_rate, .rapidZ safety_height] ++
    (if p < pecks.getLastD 0 then [.rapidZ 0] else [])

/-- `_generate_drill_inline(points, params, pecks)`: per point, rapid to the
point at travel height, rapid to `Z0`, then the peck cycle. -/
def generate_drill_inline (points : List (ℚ × ℚ))
    (plunge_rate travel_height safety_height : ℚ) (pecks : List ℚ) : List DrillCmd :=
  points.flatMap fun pt =>
    [.rapidXY pt.1 pt.2 travel_height, .rapidZ 0] ++
    inlinePeckBlock pecks plunge_rate safety_height

end Drill

/-! ## Circular cuts (src/src/utils/tool_compensation.py,
src/src/utils/lead_in.py, src/src/utils/subroutine_generator.py,
src/src/gcode_generator.py)

The auto-mode circle pipeline always uses `approach_angle = 90`
(src/src/gcode_generator.py line 898), whose math angle is
`radians(90 - 90) = 0` with `cos = 1`, `sin = 0`; the embedding is
specialised to that angle, so every `r * cos(math_angle)` of the source
appears as `r` and every `r * sin(math_angle)` as `0`. -/

namespace Circle

/-- `get_compensation_offset(tool_diameter, compensation)`. -/
def get_compensation_offset (tool_diameter : ℚ) (compensation : String) : ℚ :=
  let tool_radius := tool_diameter / 2
  if compensation = "interior" then -tool_radius
  else if compensation = "exterior" then tool_radius
  else 0

/-- `calculate_cut_radius(feature_diameter, tool_diameter, compensation)`. -/
def calculate_cut_radius (feature_diameter tool_diameter : ℚ) (compensation : String) : ℚ :=
  feature_diameter / 2 + get_compensation_offset tool_diameter compensation

/-- `calculate_helix_revolutions(target_depth, helix_pitch)`:
`1` for non-positive pitch, else `max(1, ceil(target_depth / helix_pitch))`. -/
def calculate_helix_revolutions (target_depth helix_pitch : ℚ) : ℤ :=
  if helix_pitch ≤ 0 then 1 else max 1 ⌈target_depth / helix_pitch⌉

/-- `calculate_ramped_helix_feed(rev, total_revolutions, plunge_rate,
feed_rate)` (src/src/utils/gcode_format.py): four-step ramp where helix
revolutions take the 25%/50%/75% steps. -/
def calculate_ramped_helix_feed (rev total_revolutions : ℕ) (plunge_rate feed_rate : ℚ) : ℚ :=
  let step_percentages : List ℚ := [1/4, 1/2, 3/4]
  let feed_range := feed_rate - plunge_rate
  let step_pct :=
    if total_revolutions = 1 then 3/4
    else if total_revolutions = 2 then step_percentages.getD (rev + 1) 0
    else step_percentages.getD (min rev 2) 0
  plunge_rate + feed_range * step_pct

/-- Modelled from the spec: `generate_helical_entry` is imported by
src/src/utils/subroutine_generator.py from `.lead_in` but is defined nowhere
under src/ (only its callers and tests are present).  This models the
configuration the circle subroutine uses — relative Z mode with an arc
transition — from spec §4.10 ("Helical descent emission": `⌈target/pitch⌉`
full-turn arcs each descending `target/N_rev`, feed stepping 25/50/75% with
the transition at 100%; "Relative/absolute mode management") and the body
shape of spec scenario B (`G00 Z0; G91; G02 ... Z-... I... J... F...; G90;`
then the transition arc, skipped when the radii differ by less than `10⁻³`).
The transition arc is emitted in its own relative block since no absolute
center is available in this mode. -/
def generate_helical_entry_relative_arc
    (helix_radius target_depth helix_pitch plunge_rate helix_end_feed cut_radius : ℚ) :
    List String :=
  let revolutions := (calculate_helix_revolutions target_depth helix_pitch).toNat
  let depth_per_rev := target_depth / (revolutions : ℚ)
  let i_offset := -helix_radius
  let j_offset := (0 : ℚ)
  ["G00 Z0", "G91"] ++
  ((List.range revolutions).map fun rev =>
    Fmt.generate_arc_move "G02" 0 0 i_offset j_offset
      (some (calculate_ramped_helix_feed rev revolutions plunge_rate helix_end_feed))
      (some (-depth_per_rev))) ++
  ["G90"] ++
  (if |helix_radius - cut_radius| < 1/1000 then []
   else
    ["G91",
     Fmt.generate_arc_move "G02" (cut_radius - helix_radius) 0 i_offset j_offset
       (some helix_end_feed) none,
     "G90"])

/-- `generate_helical_preamble_circle(...)` (src/src/utils/subroutine_generator.py):
thin wrapper passing `helix_end_feed = feed_rate * arc_feed_factor`. -/
def generate_helical_preamble_circle
    (helix_radius cut_radius pass_depth helix_pitch plunge_rate feed_rate arc_feed_factor : ℚ) :
    List String :=
  generate_helical_entry_relative_arc helix_radius pass_depth helix_pitch plunge_rate
    (feed_rate * arc_feed_factor) cut_radius

/-- `generate_cut_preamble(pass_depth, plunge_rate)`: vertical plunge in
relative mode. -/
def generate_cut_preamble (pass_depth plunge_rate : ℚ) : List String :=
  ["G91",
   Fmt.generate_linear_move none none (some (-pass_depth)) (some plunge_rate),
   "G90"]

/-- `generate_ramp_preamble_circle(lead_in_distance, pass_depth, plunge_rate)`
at the default `approach_angle = 90`: `dx = -lead_in_distance`, `dy = 0`, so
the `abs(dy) < 0.0001` branch emits the X-only ramp move. -/
def generate_ramp_preamble_circle (lead_in_distance pass_depth plunge_rate : ℚ) : List String :=
  ["G91",
   Fmt.generate_linear_move (some (-lead_in_distance)) none (some (-pass_depth))
     (some plunge_rate),
   "G90"]

/-- The bare full-circle line `f"G02 I{i} J{j} F{feed}"`. -/
def fullCircleLine (i j feed : ℚ) : String :=
  String.intercalate " "
    ["G02", "I" ++ Fmt.format_coordinate i 4, "J" ++ Fmt.format_coordinate j 4,
     "F" ++ Fmt.format_coordinate feed 1]

/-- The helical lead-out line
`f"G02 X{dx} Y{dy} I{i} J{j} F{feed}"`. -/
def helicalLeadOutLine (dx dy i j feed : ℚ) : String :=
  String.intercalate " "
    ["G02", "X" ++ Fmt.format_coordinate dx 4, "Y" ++ Fmt.format_coordinate dy 4,
     "I" ++ Fmt.format_coordinate i 4, "J" ++ Fmt.format_coordinate j 4,
     "F" ++ Fmt.format_coordinate feed 1]

/-- `generate_circle_pass_subroutine(...)` at `approach_angle = 90`, including
the trailing `M99`/`%` appended by `generate_subroutine_file`.  Optional
arguments keep Python's `is not None and > 0` guards via `getD 0`. -/
def generate_circle_pass_subroutine
    (cut_radius pass_depth plunge_rate feed_rate : ℚ)
    (lead_in_distance : Option ℚ) (lead_in_type : String) (helix_radius : Option ℚ)
    (helix_pitch hold_time arc_feed_factor : ℚ) : List String :=
  let arc_feed := feed_rate * arc_feed_factor
  let i_offset := -cut_radius
  let j_offset := (0 : ℚ)
  let preamble :=
    if lead_in_type = "helical" ∧ 0 < helix_radius.getD 0 then
      generate_helical_preamble_circle (helix_radius.getD 0) cut_radius pass_depth
        helix_pitch plunge_rate feed_rate arc_feed_factor
    else if lead_in_type = "ramp" ∧ 0 < lead_in_distance.getD 0 then
      generate_ramp_preamble_circle (lead_in_distance.getD 0) pass_depth plunge_rate
    else
      generate_cut_preamble pass_depth plunge_rate
  let withHold :=
    if 0 < hold_time then
      preamble.take 1 ++ ["G04 P" ++ Fmt.natStr (⌊hold_time * 1000⌋).toNat] ++ preamble.drop 1
    else preamble
  let leadOut :=
    if lead_in_type = "helical" ∧ 0 < helix_radius.getD 0 then
      if 1/1000 < |helix_radius.getD 0 - cut_radius| then
        ["G91",
         helicalLeadOutLine (helix_radius.getD 0 - cut_radius) 0 i_offset j_offset arc_feed,
         "G90"]
      else []
    else if lead_in_type = "ramp" ∧ 0 < lead_in_distance.getD 0 then
      ["G91",
       Fmt.generate_linear_move (some (lead_in_distance.getD 0)) none none (some feed_rate),
       "G90"]
    else []
  withHold ++ [fullCircleLine i_offset j_offset arc_feed] ++ leadOut ++
    Fmt.generate_subroutine_end

/-- One circular-cut operation as consumed by `generate_circular_gcode`. -/
structure CircleOp where
  center_x : ℚ
  center_y : ℚ
  diameter : ℚ
  compensation : Option String
  hold_time : Option ℚ
  deriving DecidableEq

/-- The grouping key `(diameter, compensation, hold_time)` with the source's
`.get` defaults. -/
def groupKey (c : CircleOp) : ℚ × String × ℚ :=
  (c.diameter, c.compensation.getD "interior", c.hold_time.getD 0)

/-- Append a circle to its key's bucket, or open a new bucket at the end —
Python dict insertion-order semantics. -/
def insertGroup (groups : List ((ℚ × String × ℚ) × List CircleOp))
    (k : ℚ × String × ℚ) (c : CircleOp) : List ((ℚ × String × ℚ) × List CircleOp) :=
  match groups with
  | [] => [(k, [c])]
  | (k', cs) :: rest =>
    if k' = k then (k', cs ++ [c]) :: rest else (k', cs) :: insertGroup rest k c

/-- The `circle_groups` dict built by `generate_circular_gcode`. -/
def groupCircles (circles : List CircleOp) : List ((ℚ × String × ℚ) × List CircleOp) :=
  circles.foldl (fun g c => insertGroup g (groupKey c) c) []

/-- The generator fields `generate_circular_gcode` reads, with
`pass_depth` etc. already extracted from `ToolParams`. -/
structure CircleCtx where
  tool_diameter : ℚ
  pass_depth : Option ℚ
  plunge_rate : ℚ
  feed_rate : ℚ
  material_depth : ℚ
  travel_height : ℚ
  safety_height : ℚ
  helix_pitch : ℚ
  lead_in_distance : ℚ
  lead_in_type : String
  base_path : String
  project_name : String

/-- Mutable generator state threaded through the group loop. -/
structure CircleGenState where
  used : List ℕ
  warnings : List String
  lines : List String
  subs : List (ℕ × List String)

/-- `params.pass_depth or 0.025` (Python `or`: `None` and `0.0` fall back). -/
def resolvePassDepth (pass_depth : Option ℚ) : ℚ :=
  match pass_depth with
  | none => 1/40
  | some v => if v = 0 then 1/40 else v

/-- One iteration of the `for (diameter, compensation, hold_time), group in
circle_groups.items()` loop of `generate_circular_gcode` (subroutine branch,
auto circles, `approach_angle = 90`).  The numeric rendering inside the
warning text is idealised (the claims never inspect it). -/
def processCircleGroup (ctx : CircleCtx) (st : CircleGenState)
    (g : (ℚ × String × ℚ) × List CircleOp) : CircleGenState :=
  let (diameter, compensation, hold_time) := g.1
  let pass_depth := resolvePassDepth ctx.pass_depth
  let num_passes := (Multipass.calculate_num_passes ctx.material_depth pass_depth).toNat
  let actual_pass_depth := ctx.material_depth / (num_passes : ℚ)
  let cut_radius := calculate_cut_radius diameter ctx.tool_diameter compensation
  let helix_radius_0 :=
    if ctx.lead_in_type = "helical" then
      LeadIn.calculate_helix_radius_for_circle cut_radius ctx.tool_diameter (1/40)
    else none
  let shape_desc := "Circle d=" ++ Fmt.format_coordinate diameter 4 ++ "\""
  let resolved := Resolver.determine_effective_lead_in ctx.lead_in_type helix_radius_0
    shape_desc st.warnings
  let eff := resolved.1.1
  let helix_radius := resolved.1.2
  let warnings' := resolved.2
  let sub_num := Subr.get_next_subroutine_number "circular" st.used
  let sub_content := generate_circle_pass_subroutine cut_radius actual_pass_depth
    ctx.plunge_rate ctx.feed_rate
    (if eff = "ramp" then some ctx.lead_in_distance else none) eff helix_radius
    ctx.helix_pitch hold_time 1
  let sub_path := Subr.build_subroutine_path ctx.base_path ctx.project_name sub_num
  let circleLines := g.2.flatMap fun c =>
    (if eff = "helical" ∧ LeadIn.helixTruthy helix_radius then
      [Fmt.generate_rapid_move (some (c.center_x + helix_radius.getD 0)) (some c.center_y)
        (some ctx.travel_height)]
    else if eff = "ramp" ∧ ctx.lead_in_distance ≠ 0 then
      [Fmt.generate_rapid_move (some (c.center_x + cut_radius + ctx.lead_in_distance))
        (some c.center_y) (some ctx.travel_height)]
    else
      [Fmt.generate_rapid_move (some (c.center_x + cut_radius)) (some c.center_y)
        (some ctx.travel_height)]) ++
    [Fmt.generate_rapid_move none none (some 0),
     Fmt.generate_subroutine_call sub_path num_passes,
     Fmt.generate_rapid_move none none (some ctx.safety_height)]
  { used := st.used ++ [sub_num]
    warnings := warnings'
    lines := st.lines ++ circleLines
    subs := st.subs ++ [(sub_num, sub_content)] }

/-- `generate_circular_gcode` for auto-mode circles with subroutines
supported: group, then run the group loop. -/
def generate_circular_gcode_auto (ctx : CircleCtx) (circles : List CircleOp)
    (used0 : List ℕ) (warnings0 : List String) : CircleGenState :=
  (groupCircles circles).foldl (processCircleGroup ctx)
    ⟨used0, warnings0, [], []⟩

end Circle

/-! ## Corner detection (src/src/utils/corner_detection.py)

The source computes angles with `math.sqrt`/`math.acos`; the embedding uses
`ℝ` with `Real.sqrt`/`Real.arccos`, so these definitions are noncomputable
and the claims about them are settled by lemmas rather than evaluation. -/

namespace Corner

/-- A path point as read by the corner detector: coordinates, `line_type`
(default `'straight'` already resolved), the arc center when the
`'arc_center_x'` key is present, and the optional `'arc_direction'`. -/
structure CPoint where
  x : ℝ
  y : ℝ
  lineType : String
  arcCenter : Option (ℝ × ℝ)
  arcDirection : Option String

/-- Coordinates of a point. -/
def pointXY (p : CPoint) : ℝ × ℝ := (p.x, p.y)

/-- `calculate_direction_vector(p1, p2)`: the unit direction, or the default
`(1.0, 0.0)` when the segment is degenerate (`mag < 0.0001`). -/
noncomputable def calculate_direction_vector (p1 p2 : ℝ × ℝ) : ℝ × ℝ :=
  let dx := p2.1 - p1.1
  let dy := p2.2 - p1.2
  let mag := Real.sqrt (dx * dx + dy * dy)
  if mag < 1/10000 then (1, 0) else (dx / mag, dy / mag)

/-- `get_arc_tangent_at_point(center, point, direction)`: unit tangent,
`(-ry, rx)` for `'G03'` else `(ry, -rx)`, with default `(1.0, 0.0)` on a
degenerate radius. -/
noncomputable def get_arc_tangent_at_point (center point : ℝ × ℝ) (direction : String) :
    ℝ × ℝ :=
  let rx := point.1 - center.1
  let ry := point.2 - center.2
  let t : ℝ × ℝ := if direction = "G03" then (-ry, rx) else (ry, -rx)
  let mag := Real.sqrt (t.1 * t.1 + t.2 * t.2)
  if mag < 1/10000 then (1, 0) else (t.1 / mag, t.2 / mag)

/-- `angle_between_vectors(v1, v2)`: degrees of the arccosine of the clamped
dot product. -/
noncomputable def angle_between_vectors (v1 v2 : ℝ × ℝ) : ℝ :=
  let dot := v1.1 * v2.1 + v1.2 * v2.2
  Real.arccos (max (-1) (min 1 dot)) * 180 / Real.pi

/-- The `arc_dir` normalisation in `identify_corners`: `'ccw'`/`'cw'`
(case-insensitively) map to `'G03'`/`'G02'`, anything else is kept. -/
def normalizeArcDir (s : String) : String :=
  if s.toLower = "ccw" then "G03" else if s.toLower = "cw" then "G02" else s

/-- Incoming direction at a point: arc tangent when the point's segment is an
arc with a center, else the direction of the straight segment into it. -/
noncomputable def incomingDir (prev curr : CPoint) : ℝ × ℝ :=
  if curr.lineType = "arc" ∧ curr.arcCenter.isSome then
    get_arc_tangent_at_point (curr.arcCenter.getD (0, 0)) (pointXY curr)
      (normalizeArcDir (curr.arcDirection.getD "G02"))
  else calculate_direction_vector (pointXY prev) (pointXY curr)

/-- Outgoing direction at a point: arc tangent of the next segment at this
point when it is an arc with a center, else the straight direction onward. -/
noncomputable def outgoingDir (curr next : CPoint) : ℝ × ℝ :=
  if next.lineType = "arc" ∧ next.arcCenter.isSome then
    get_arc_tangent_at_point (next.arcCenter.getD (0, 0)) (pointXY curr)
      (normalizeArcDir (next.arcDirection.getD "G02"))
  else calculate_direction_vector (pointXY curr) (pointXY next)

/-- The default point used only to make list indexing total. -/
def dfltPoint : CPoint := ⟨0, 0, "straight", none, none⟩

/-- The angle `identify_corners` measures at interior index `i`. -/
noncomputable def cornerAngleAt (path : List CPoint) (i : ℕ) : ℝ :=
  angle_between_vectors
    (incomingDir (path.getD (i - 1) dfltPoint) (path.getD i dfltPoint))
    (outgoingDir (path.getD i dfltPoint) (path.getD (i + 1) dfltPoint))

/-- `identify_corners(path, angle_threshold)` reduced to the data the later
stages read: the `(index, angle)` of each interior point whose angle is below
the threshold (the source dict also carries `x`, `y` and the two directions,
which nothing downstream uses). -/
noncomputable def identify_corners (path : List CPoint) (angle_threshold : ℝ) :
    List (ℕ × ℝ) :=
  if path.length < 3 then []
  else
    (List.range' 1 (path.length - 2)).filterMap fun i =>
      if cornerAngleAt path i < angle_threshold then some (i, cornerAngleAt path i) else none

/-- `calculate_corner_feed_factor(angle)`: the severity table. -/
noncomputable def calculate_corner_feed_factor (angle : ℝ) : ℝ :=
  if 120 ≤ angle then 1
  else if 90 ≤ angle then 3/4
  else if 60 ≤ angle then 1/2
  else if 30 ≤ angle then 2/5
  else 3/10

/-- The `corner_indices` dict lookup of `generate_corner_slowdown_points`:
`base_feed_factor * table(angle)` at a corner index, `1.0` elsewhere
(corner indices are distinct, so first-match equals dict semantics). -/
noncomputable def cornerFactor (corners : List (ℕ × ℝ)) (base_feed_factor : ℝ)
    (i : ℕ) : ℝ :=
  match corners.find? (fun c => c.1 = i) with
  | some c => base_feed_factor * calculate_corner_feed_factor c.2
  | none => 1

/-- The `for i, point in enumerate(path)` annotation loop of
`generate_corner_slowdown_points`: each point is paired with its
`corner_feed_factor`. -/
noncomputable def annotate (corners : List (ℕ × ℝ)) (base_feed_factor : ℝ) :
    ℕ → List CPoint → List (CPoint × ℝ)
  | _, [] => []
  | i, p :: ps =>
    (p, cornerFactor corners base_feed_factor i) :: annotate corners base_feed_factor (i + 1) ps

/-- `generate_corner_slowdown_points(path, angle_threshold, _, base_feed_factor)`:
short paths and corner-free paths get factor `1.0` everywhere, otherwise the
annotation loop runs (`approach_distance` is accepted and unused by the
source too). -/
noncomputable def generate_corner_slowdown_points (path : List CPoint)
    (angle_threshold base_feed_factor : ℝ) : List (CPoint × ℝ) :=
  if path.length < 3 then path.map fun p => (p, 1)
  else
    let corners := identify_corners path angle_threshold
    if corners.isEmpty then path.map fun p => (p, 1)
    else annotate corners base_feed_factor 0 path

end Corner

/-! ## Tool compensation for line paths (src/src/utils/tool_compensation.py)

Points are embedded with their geometric fields and the dict keys the
algorithm reads (`line_type`, `arc_center_x/y`, `arc_direction`), each
`Option`-valued with the source's `.get` defaults applied at the read sites.
`math.atan2(y, x)` is embedded as the argument of the complex number `x + iy`.
A raised `ValueError` (arc radius too small) is the `none` result. -/

namespace Comp

/-- A line-path point dict. -/
structure LPoint where
  x : ℝ
  y : ℝ
  lineType : Option String
  arcCenterX : Option ℝ
  arcCenterY : Option ℝ
  arcDirection : Option String

/-- Default point, used only to make list indexing total. -/
def dfltPoint : LPoint := ⟨0, 0, none, none, none, none⟩

/-- Coordinates of a point. -/
def xy (p : LPoint) : ℝ × ℝ := (p.x, p.y)

/-- `dict(p)` followed by overwriting `x` and `y`. -/
def setXY (p : LPoint) (q : ℝ × ℝ) : LPoint := { p with x := q.1, y := q.2 }

/-- `math.atan2 y x`, i.e. the principal argument of `x + iy` (both are `0`
at the origin and agree on every quadrant and axis). -/
noncomputable def atan2 (y x : ℝ) : ℝ := Complex.arg ⟨x, y⟩

/-- Python `str.lower()` on the ASCII arc-direction flags, mapped characterwise
(structurally recursive, unlike `String.toLower`, so it evaluates). -/
def lowerStr (s : String) : String := ⟨s.data.map Char.toLower⟩

/-- `calculate_line_normal(p1, p2)`: unit left normal, `(0, 0)` for a
zero-length segment (`if length == 0`). -/
noncomputable def calculate_line_normal (p1 p2 : ℝ × ℝ) : ℝ × ℝ :=
  let dx := p2.1 - p1.1
  let dy := p2.2 - p1.2
  let length := Real.sqrt (dx * dx + dy * dy)
  if length = 0 then (0, 0) else (-dy / length, dx / length)

/-- `offset_line_segment(p1, p2, offset)`: translate both endpoints along the
unit normal. -/
noncomputable def offset_line_segment (p1 p2 : ℝ × ℝ) (offset : ℝ) : (ℝ × ℝ) × (ℝ × ℝ) :=
  let n := calculate_line_normal p1 p2
  ((p1.1 + n.1 * offset, p1.2 + n.2 * offset), (p2.1 + n.1 * offset, p2.2 + n.2 * offset))

/-- `calculate_line_intersection(l1_p1, l1_p2, l2_p1, l2_p2)`: `None` when
`abs(denom) < 1e-10`, else the parametric intersection point on line 1. -/
noncomputable def calculate_line_intersection (l1p1 l1p2 l2p1 l2p2 : ℝ × ℝ) :
    Option (ℝ × ℝ) :=
  let x1 := l1p1.1; let y1 := l1p1.2
  let x2 := l1p2.1; let y2 := l1p2.2
  let x3 := l2p1.1; let y3 := l2p1.2
  let x4 := l2p2.1; let y4 := l2p2.2
  let denom := (x1 - x2) * (y3 - y4) - (y1 - y2) * (x3 - x4)
  if |denom| < 1 / 10 ^ 10 then none
  else
    let t := ((x1 - x3) * (y3 - y4) - (y1 - y3) * (x3 - x4)) / denom
    some (x1 + t * (x2 - x1), y1 + t * (y2 - y1))

/-- `calculate_line_circle_intersection(line_p1, line_p2, center, radius,
prefer_near)`: quadratic roots along the line; `None` on a degenerate line or
negative discriminant, else the root point nearer `prefer_near`
(`dist1 <= dist2` prefers the first root). -/
noncomputable def calculate_line_circle_intersection (p1 p2 center : ℝ × ℝ)
    (radius : ℝ) (prefer_near : ℝ × ℝ) : Option (ℝ × ℝ) :=
  let dx := p2.1 - p1.1
  let dy := p2.2 - p1.2
  let ax := p1.1 - center.1
  let ay := p1.2 - center.2
  let A := dx * dx + dy * dy
  let B := 2 * (ax * dx + ay * dy)
  let C := ax * ax + ay * ay - radius * radius
  if |A| < 1 / 10 ^ 10 then none
  else
    let disc := B * B - 4 * A * C
    if disc < 0 then none
    else
      let sq := Real.sqrt disc
      let t1 := (-B - sq) / (2 * A)
      let t2 := (-B + sq) / (2 * A)
      let q1 := (p1.1 + t1 * dx, p1.2 + t1 * dy)
      let q2 := (p1.1 + t2 * dx, p1.2 + t2 * dy)
      let d1 := (q1.1 - prefer_near.1) ^ 2 + (q1.2 - prefer_near.2) ^ 2
      let d2 := (q2.1 - prefer_near.1) ^ 2 + (q2.2 - prefer_near.2) ^ 2
      some (if d1 ≤ d2 then q1 else q2)

/-- `_is_path_closed(path)`: first and last coordinates within `1e-4`. -/
def is_path_closed (path : List LPoint) : Prop :=
  2 ≤ path.length ∧
  |(path.getD 0 dfltPoint).x - (path.getLastD dfltPoint).x| < 1/10000 ∧
  |(path.getD 0 dfltPoint).y - (path.getLastD dfltPoint).y| < 1/10000

noncomputable instance (path : List LPoint) : Decidable (is_path_closed path) := by
  unfold is_path_closed; infer_instance

/-- `calculate_path_winding(path)`: half the cyclic shoelace sum, `0` for
fewer than 3 points. -/
noncomputable def calculate_path_winding (path : List LPoint) : ℝ :=
  if path.length < 3 then 0
  else
    let n := path.length
    (((List.range n).map fun i =>
      let pi := path.getD i dfltPoint
      let pj := path.getD ((i + 1) % n) dfltPoint
      pi.x * pj.y - pj.x * pi.y).sum) / 2

/-- The signed offset chosen by `compensate_line_path` from the winding and
the compensation type (`winding >= 0` branches). -/
noncomputable def compOffset (tool_radius winding : ℝ) (compensation_type : String) : ℝ :=
  if compensation_type = "exterior" then
    if 0 ≤ winding then -tool_radius else tool_radius
  else
    if 0 ≤ winding then tool_radius else -tool_radius

/-- An offset segment record (`{'type': ..., 'start': ..., 'end': ...,
'center': ..., 'segment_source': ...}`). -/
inductive OffSeg where
  | straight (s e : ℝ × ℝ) (src : LPoint)
  | arc (s e : ℝ × ℝ) (center : ℝ × ℝ) (src : LPoint)

/-- Start point of an offset segment. -/
def OffSeg.startP : OffSeg → ℝ × ℝ
  | .straight s _ _ => s
  | .arc s _ _ _ => s

/-- End point of an offset segment. -/
def OffSeg.endP : OffSeg → ℝ × ℝ
  | .straight _ e _ => e
  | .arc _ e _ _ => e

/-- `segment_source` of an offset segment. -/
def OffSeg.source : OffSeg → LPoint
  | .straight _ _ src => src
  | .arc _ _ _ src => src

/-- Default segment, used only to make list indexing total. -/
def dfltSeg : OffSeg := .straight (0, 0) (0, 0) dfltPoint

/-- `segment_source` selection: the original last point for the closing
segment of a closed path (`closing_segment_data`), else `path[j]`. -/
def segSource (path : List LPoint) (closed : Bool) (j : ℕ) : LPoint :=
  if closed ∧ j = 0 then path.getLastD dfltPoint else path.getD j dfltPoint

/-- One iteration of the offset-segment construction loop (index `i`,
`j = (i+1) % n`): parallel offset for straight segments; for arcs, the
mid-angle sample decides the bulge side, the radius changes by
`±tool_radius`, both endpoints are scaled radially on their own radii, and a
non-positive new radius raises (`none`). -/
noncomputable def offsetSegAt (path : List LPoint) (n : ℕ) (closed : Bool)
    (offset tool_radius : ℝ) (_compensation_type : String) (i : ℕ) : Option OffSeg :=
  let j := (i + 1) % n
  let p1 := xy (path.getD i dfltPoint)
  let p2 := xy (path.getD j dfltPoint)
  let src := segSource path closed j
  if (src.lineType.getD "straight") = "arc" then
    let c := (src.arcCenterX.getD 0, src.arcCenterY.getD 0)
    let arc_dir := lowerStr (src.arcDirection.getD "")
    let start_angle := atan2 (p1.2 - c.2) (p1.1 - c.1)
    let end_angle := atan2 (p2.2 - c.2) (p2.1 - c.1)
    let mid_angle :=
      if arc_dir = "cw" then
        ((if start_angle < end_angle then start_angle + 2 * Real.pi else start_angle) +
          end_angle) / 2
      else
        (start_angle +
          (if end_angle < start_angle then end_angle + 2 * Real.pi else end_angle)) / 2
    let radius := Real.sqrt ((p1.1 - c.1) ^ 2 + (p1.2 - c.2) ^ 2)
    let arc_mid_x := c.1 + radius * Real.cos mid_angle
    let arc_mid_y := c.2 + radius * Real.sin mid_angle
    let chord_dx := p2.1 - p1.1
    let chord_dy := p2.2 - p1.2
    let to_arc_dx := arc_mid_x - p1.1
    let to_arc_dy := arc_mid_y - p1.2
    let cross := chord_dx * to_arc_dy - chord_dy * to_arc_dx
    let arc_bulges_left := 0 < cross
    let want_offset_left := 0 < offset
    let radius_change :=
      if arc_bulges_left = want_offset_left then |tool_radius| else -|tool_radius|
    let d1 := (p1.1 - c.1, p1.2 - c.2)
    let d2 := (p2.1 - c.1, p2.2 - c.2)
    let radius1 := Real.sqrt (d1.1 * d1.1 + d1.2 * d1.2)
    let radius2 := Real.sqrt (d2.1 * d2.1 + d2.2 * d2.2)
    let new_radius1 := radius1 + radius_change
    let new_radius2 := radius2 + radius_change
    if new_radius1 ≤ 0 ∨ new_radius2 ≤ 0 then none
    else
      let scale1 := if 0 < radius1 then new_radius1 / radius1 else 1
      let scale2 := if 0 < radius2 then new_radius2 / radius2 else 1
      some (.arc (c.1 + d1.1 * scale1, c.2 + d1.2 * scale1)
        (c.1 + d2.1 * scale2, c.2 + d2.2 * scale2) c src)
  else
    let o := offset_line_segment p1 p2 offset
    some (.straight o.1 o.2 src)

/-- The corner emitted between adjacent offset segments (the straight/straight,
arc/straight and straight/arc branches produce one joint point carrying
`segment_source`'s properties; arc/arc inserts the first arc's end plus a
fresh straight point at the second arc's start). -/
noncomputable def jointPoints (seg next_seg : OffSeg) (original_point : LPoint) :
    List LPoint :=
  match seg, next_seg with
  | .straight s e _, .straight s' e' _ =>
    [setXY original_point ((calculate_line_intersection s e s' e').getD e)]
  | .arc _ e c _, .straight s' e' _ =>
    let arc_radius := Real.sqrt ((e.1 - c.1) * (e.1 - c.1) + (e.2 - c.2) * (e.2 - c.2))
    [setXY original_point ((calculate_line_circle_intersection s' e' c arc_radius e).getD e)]
  | .straight s e _, .arc s' _ c' _ =>
    let arc_radius := Real.sqrt ((s'.1 - c'.1) * (s'.1 - c'.1) + (s'.2 - c'.2) * (s'.2 - c'.2))
    [setXY original_point ((calculate_line_circle_intersection s e c' arc_radius s').getD s')]
  | .arc _ e _ _, .arc s' _ _ _ =>
    [setXY original_point e, ⟨s'.1, s'.2, some "straight", none, none, none⟩]

/-- The first output point (index `i = 0`): for closed paths the joint with
the last segment (same three intersection branches, arc/arc keeps the
segment start), for open paths the first segment's offset start. -/
noncomputable def firstPoint (segs : List OffSeg) (closed : Bool) : ℝ × ℝ :=
  let seg := segs.getD 0 dfltSeg
  if closed then
    let prev_seg := segs.getLastD dfltSeg
    match prev_seg, seg with
    | .straight ps pe _, .straight s e _ =>
      (calculate_line_intersection ps pe s e).getD (OffSeg.startP seg)
    | .arc _ pe pc _, .straight s e _ =>
      let arc_radius :=
        Real.sqrt ((pe.1 - pc.1) * (pe.1 - pc.1) + (pe.2 - pc.2) * (pe.2 - pc.2))
      (calculate_line_circle_intersection s e pc arc_radius s).getD s
    | .straight ps pe _, .arc s _ c _ =>
      let arc_radius := Real.sqrt ((s.1 - c.1) * (s.1 - c.1) + (s.2 - c.2) * (s.2 - c.2))
      (calculate_line_circle_intersection ps pe c arc_radius s).getD s
    | .arc _ _ _ _, .arc _ _ _ _ => OffSeg.startP seg
  else OffSeg.startP seg

/-- The stitching loop over offset segments: the first point (with
`path[0]`'s properties), then per segment either the joint with the next
segment (when one follows, or always for closed paths) or, for the last
segment of an open path, its own offset end point. -/
noncomputable def stitch (segs : List OffSeg) (path : List LPoint) (closed : Bool) :
    List LPoint :=
  (List.range segs.length).flatMap fun i =>
    let seg := segs.getD i dfltSeg
    (if i = 0 then [setXY (path.getD 0 dfltPoint) (firstPoint segs closed)] else []) ++
    (if i < segs.length - 1 ∨ closed = true then
      jointPoints seg (segs.getD ((i + 1) % segs.length) dfltSeg) seg.source
    else
      [setXY seg.source seg.endP])

/-- The offset-segment list `compensate_line_path` builds (`none` when the
arc branch raises). -/
noncomputable def offsetSegments (path : List LPoint) (tool_diameter : ℝ)
    (compensation_type : String) : Option (List OffSeg) :=
  let tool_radius := tool_diameter / 2
  let closed : Bool := decide (is_path_closed path)
  let winding := calculate_path_winding path
  let offset := compOffset tool_radius winding compensation_type
  let n := if closed then path.length - 1 else path.length
  let m := if closed then n else n - 1
  (List.range m).mapM (offsetSegAt path n closed offset tool_radius compensation_type)

/-- `compensate_line_path(path, tool_diameter, compensation_type)`:
identity for `'none'` or short paths, `none` when an arc radius collapses,
else the stitched offset path. -/
noncomputable def compensate_line_path (path : List LPoint) (tool_diameter : ℝ)
    (compensation_type : String) : Option (List LPoint) :=
  if compensation_type = "none" ∨ path.length < 2 then some path
  else
    let closed : Bool := decide (is_path_closed path)
    match offsetSegments path tool_diameter compensation_type with
    | none => none
    | some segs => if segs.isEmpty then some path else some (stitch segs path closed)

/-- Perpendicular distance from a point to the infinite line through `a`, `b`. -/
noncomputable def distToLine (q a b : ℝ × ℝ) : ℝ :=
  |(b.1 - a.1) * (q.2 - a.2) - (b.2 - a.2) * (q.1 - a.1)| /
    Real.sqrt ((b.1 - a.1) ^ 2 + (b.2 - a.2) ^ 2)

end Comp

/-! ## Theorems -/

/-- C1: For every total depth `D` and maximum per-pass depth `p` with `D > 0`
and `p > 0`, the multi-pass planner produces exactly `⌈D/p⌉` passes, every
pass removes exactly `D / ⌈D/p⌉`, the cumulative depth after pass `i`
(1-indexed; pass number `t.1` is 0-indexed) is `i * D / ⌈D/p⌉`, and the
per-pass depths sum to `D`; when `p = 0` or `D = 0` exactly one pass is
produced. -/
theorem C1_multipass_depths (D p : ℚ) :
    (0 < D → 0 < p →
      (Multipass.iter_passes D p).length = (⌈D / p⌉).toNat ∧
      (∀ t ∈ Multipass.iter_passes D p,
        t.2.2 = D / ((⌈D / p⌉ : ℤ) : ℚ) ∧
        t.2.1 = ((t.1 : ℚ) + 1) * (D / ((⌈D / p⌉ : ℤ) : ℚ))) ∧
      ((Multipass.iter_passes D p).map fun t => t.2.2).sum = D ∧
      Multipass.calculate_pass_depths D p =
        (List.range' 1 (⌈D / p⌉).toNat).map fun i => (i : ℚ) * (D / ((⌈D / p⌉ : ℤ) : ℚ))) ∧
    (p = 0 ∨ D = 0 →
      (Multipass.iter_passes D p).length = 1 ∧
      (Multipass.calculate_pass_depths D p).length = 1) := by
  constructor
  · intro hD hp
    have hdiv : 0 < D / p := div_pos hD hp
    have hceil : (1 : ℤ) ≤ ⌈D / p⌉ := by
      have := Int.ceil_pos.mpr hdiv
      omega
    have hnum : Multipass.calculate_num_passes D p = ⌈D / p⌉ := by
      unfold Multipass.calculate_num_passes
      rw [if_neg (by exact not_le.mpr hp), max_eq_right hceil]
    have hnn : (0 : ℤ) ≤ ⌈D / p⌉ := by omega
    have htoNat : (((⌈D / p⌉).toNat : ℕ) : ℚ) = ((⌈D / p⌉ : ℤ) : ℚ) := by
      exact_mod_cast Int.toNat_of_nonneg hnn
    have hN0 : ((⌈D / p⌉ : ℤ) : ℚ) ≠ 0 := by
      have : (0 : ℚ) < ((⌈D / p⌉ : ℤ) : ℚ) := by exact_mod_cast hceil
      positivity
    refine ⟨?_, ?_, ?_, ?_⟩
    · simp [Multipass.iter_passes, hnum]
    · intro t ht
      simp only [Multipass.iter_passes, hnum, List.mem_map, List.mem_range] at ht
      obtain ⟨i, _, rfl⟩ := ht
      simp [htoNat]
    · simp only [Multipass.iter_passes, hnum, List.map_map]
      have hconst : ((fun t : ℕ × ℚ × ℚ => t.2.2) ∘ fun i : ℕ =>
          (i, ((i : ℚ) + 1) * (D / ((⌈D / p⌉).toNat : ℚ)),
            D / ((⌈D / p⌉).toNat : ℚ))) =
          fun _ : ℕ => D / ((⌈D / p⌉).toNat : ℚ) := rfl
      rw [hconst, List.map_const', List.length_range, List.sum_replicate, nsmul_eq_mul,
        htoNat, mul_div_cancel₀ _ hN0]
    · simp [Multipass.calculate_pass_depths, hnum, htoNat]
  · intro hdeg
    have hnum : Multipass.calculate_num_passes D p = 1 := by
      unfold Multipass.calculate_num_passes
      rcases hdeg with h | h
      · rw [if_pos (le_of_eq h)]
      · subst h
        split
        · rfl
        · rename_i hp
          rw [zero_div, Int.ceil_zero]
          rfl
    constructor
    · simp [Multipass.iter_passes, hnum]
    · simp [Multipass.calculate_pass_depths, hnum]

/-- Witness for C1 at `D = 1/4`, `p = 1/10`: `⌈D/p⌉ = 3` passes whose depths
sum to `D`. -/
theorem C1_multipass_depths_witness :
    (Multipass.iter_passes (1/4) (1/10)).length = (⌈(1/4 : ℚ) / (1/10)⌉).toNat ∧
    ((Multipass.iter_passes (1/4) (1/10)).map fun t => t.2.2).sum = 1/4 ∧
    (⌈(1/4 : ℚ) / (1/10)⌉).toNat = 3 := by
  have h := (C1_multipass_depths (1/4) (1/10)).1 (by norm_num) (by norm_num)
  have h3 : ⌈(1 : ℚ)/4 / (1/10)⌉ = 3 := by
    rw [show (1 : ℚ)/4 / (1/10) = 5/2 by norm_num, Int.ceil_eq_iff]
    norm_num
  exact ⟨h.1, h.2.2.1, by rw [h3]; rfl⟩

/-- C5: with tube void bounds `[wall, wall] × [outer_w - wall, outer_h - wall]`,
a drill point with tool radius `r = d/2` is skipped iff `wall < x - r`,
`x + r < outer_w - wall` and the analogous strict inequalities hold in `y`
(boundary-touching points are kept); circles use outer extent `diameter/2`
and hexagons the circumradius `flat_to_flat/√3`. -/
theorem C5_tube_void_filter (points : List (ℚ × ℚ)) (outer_w outer_h wall d x y : ℚ)
    (cx cy dia td : ℚ) (rx ry rf rw rh rwall rtd : ℝ) :
    ((x, y) ∈ (TubeVoid.filter_drill_points points
        (TubeVoid.calculate_void_bounds outer_w outer_h wall) d).2 ↔
      (x, y) ∈ points ∧
        (wall < x - d/2 ∧ x + d/2 < outer_w - wall ∧
         wall < y - d/2 ∧ y + d/2 < outer_h - wall)) ∧
    ((x, y) ∈ (TubeVoid.filter_drill_points points
        (TubeVoid.calculate_void_bounds outer_w outer_h wall) d).1 ↔
      (x, y) ∈ points ∧
        ¬ (wall < x - d/2 ∧ x + d/2 < outer_w - wall ∧
           wall < y - d/2 ∧ y + d/2 < outer_h - wall)) ∧
    (TubeVoid.circle_in_void cx cy dia
        (TubeVoid.calculate_void_bounds outer_w outer_h wall) td ↔
      (wall < cx - dia/2 ∧ cx + dia/2 < outer_w - wall ∧
       wall < cy - dia/2 ∧ cy + dia/2 < outer_h - wall)) ∧
    (TubeVoid.hexagon_in_void rx ry rf
        (TubeVoid.calculate_void_bounds rw rh rwall) rtd ↔
      (rwall < rx - rf / Real.sqrt 3 ∧ rx + rf / Real.sqrt 3 < rw - rwall ∧
       rwall < ry - rf / Real.sqrt 3 ∧ ry + rf / Real.sqrt 3 < rh - rwall)) := by
  refine ⟨?_, ?_, ?_, ?_⟩
  · simp only [TubeVoid.filter_drill_points, List.mem_filter, decide_eq_true_eq,
      TubeVoid.point_in_void, TubeVoid.calculate_void_bounds, gt_iff_lt]
  · simp only [TubeVoid.filter_drill_points, List.mem_filter, decide_eq_true_eq,
      TubeVoid.point_in_void, TubeVoid.calculate_void_bounds, gt_iff_lt, not_and,
      not_lt, decide_not, Bool.not_eq_true', decide_eq_false_iff_not]
  · simp only [TubeVoid.circle_in_void, TubeVoid.point_in_void,
      TubeVoid.calculate_void_bounds, gt_iff_lt]
  · simp only [TubeVoid.hexagon_in_void, TubeVoid.point_in_void,
      TubeVoid.calculate_void_bounds, gt_iff_lt]

/-- C7: for circles with helical lead-in, the resolved helix radius equals
`min(cut_radius − clearance, tool_radius + clearance)` with clearance
`0.025`; no helix is produced exactly when that radius would fall below
`0.05`, in which case the resolver appends a warning and downgrades to ramp
(and the final config downgrades to none when the ramp distance is zero) and
always returns. -/
theorem C7_helical_fallback (cut_radius tool_diameter lead_in_distance : ℚ)
    (desc : String) (warnings : List String) :
    (∀ r, LeadIn.calculate_helix_radius_for_circle cut_radius tool_diameter (1/40) = some r →
      r = min (cut_radius - 1/40) (tool_diameter / 2 + 1/40) ∧ 1/20 ≤ r) ∧
    (LeadIn.calculate_helix_radius_for_circle cut_radius tool_diameter (1/40) = none ↔
      min (cut_radius - 1/40) (tool_diameter / 2 + 1/40) < 1/20) ∧
    (Resolver.determine_effective_lead_in "helical" none desc warnings =
      (("ramp", none),
        warnings ++ [desc ++ " too small for helical lead-in, using ramp"])) ∧
    (Resolver.circle_config_lead_in_kind "ramp" none lead_in_distance =
      if 0 < lead_in_distance then "ramp" else "none") := by
  refine ⟨?_, ?_, ?_, ?_⟩
  · intro r hr
    unfold LeadIn.calculate_helix_radius_for_circle at hr
    simp only [LeadIn.MIN_HELIX_RADIUS] at hr
    split at hr
    · exact absurd hr (by simp)
    · split at hr
      · exact absurd hr (by simp)
      · rename_i h1 h2
        refine ⟨(Option.some_inj.mp hr).symm, ?_⟩
        rw [← Option.some_inj.mp hr]
        exact not_lt.mp h2
  · unfold LeadIn.calculate_helix_radius_for_circle
    simp only [LeadIn.MIN_HELIX_RADIUS]
    split
    · rename_i h1
      simp only [true_iff]
      exact lt_of_le_of_lt (min_le_left _ _) h1
    · split
      · rename_i h1 h2
        simpa using h2
      · rename_i h1 h2
        simpa using not_lt.mp h2
  · unfold Resolver.determine_effective_lead_in
    rw [if_pos ⟨rfl, rfl⟩]
  · by_cases hd : 0 < lead_in_distance <;>
      simp [Resolver.circle_config_lead_in_kind, LeadIn.helixTruthy, hd]

/-- Witness for C7 at the scenario-B circle: cut radius `0.4375`, tool
diameter `0.125` resolve to helix radius `0.0875 = min(0.4125, 0.0875)`. -/
theorem C7_helical_fallback_witness :
    LeadIn.calculate_helix_radius_for_circle (7/16) (1/8) (1/40) = some (7/80) ∧
    (7/80 : ℚ) = min ((7/16) - 1/40) ((1/8) / 2 + 1/40) := by
  have hsome : LeadIn.calculate_helix_radius_for_circle (7/16) (1/8) (1/40) =
      some (7/80) := by
    unfold LeadIn.calculate_helix_radius_for_circle
    norm_num [LeadIn.MIN_HELIX_RADIUS, min_def]
  have h := (C7_helical_fallback (7/16) (1/8) 1 "d" []).1 (7/80) hsome
  exact ⟨hsome, h.1⟩

/-- C10: `calculate_lead_in_distance` is total: whenever `ramp_angle ≤ 0` or
`pass_depth ≤ 0` it returns the fixed fallback `0.25` for every possible
tangent function (so the `pass_depth / tan(radians(ramp_angle))` branch —
and any division by `tan 0` — is never evaluated), and for `ramp_angle > 0`,
`pass_depth > 0` it returns `pass_depth / tan(radians(ramp_angle))`. -/
theorem C10_lead_in_distance_total (tanRad : ℚ → ℚ) (ramp_angle pass_depth : ℚ) :
    (ramp_angle ≤ 0 ∨ pass_depth ≤ 0 →
      LeadIn.calculate_lead_in_distance tanRad ramp_angle pass_depth = 1/4) ∧
    (0 < ramp_angle → 0 < pass_depth →
      LeadIn.calculate_lead_in_distance tanRad ramp_angle pass_depth =
        pass_depth / tanRad ramp_angle) := by
  constructor
  · intro h
    unfold LeadIn.calculate_lead_in_distance
    rw [if_pos h]
  · intro h1 h2
    unfold LeadIn.calculate_lead_in_distance
    rw [if_neg]
    push_neg
    exact ⟨h1, h2⟩

/-- Witness for C10: with the everywhere-zero tangent function (the
division-by-`tan 0` hazard) and `ramp_angle = 0`, the fallback `0.25` is
returned. -/
theorem C10_lead_in_distance_total_witness :
    LeadIn.calculate_lead_in_distance (fun _ => 0) 0 1 = 1/4 :=
  (C10_lead_in_distance_total (fun _ => 0) 0 1).1 (Or.inl le_rfl)

/-- Slash replacement leaves no forward slash behind. -/
theorem replaceSlash_no_slash (s : String) : '/' ∉ (Fmt.replaceSlash s).data := by
  intro h
  simp only [Fmt.replaceSlash, List.mem_map] at h
  obtain ⟨a, _, ha⟩ := h
  by_cases hc : a = '/'
  · rw [if_pos hc] at ha
    exact absurd ha (by decide)
  · rw [if_neg hc] at ha
    exact hc ha

/-- Every character emitted by the decimal digit printer is a digit, never a
forward slash. -/
theorem natDigitsAux_no_slash (fuel : ℕ) :
    ∀ (n : ℕ) (acc : List Char), '/' ∉ acc → '/' ∉ Fmt.natDigitsAux fuel n acc := by
  induction fuel with
  | zero => intro n acc hacc; simpa [Fmt.natDigitsAux] using hacc
  | succ fuel ih =>
    intro n acc hacc
    have hd : Char.ofNat (48 + n % 10) ≠ '/' := by
      have h10 : n % 10 < 10 := Nat.mod_lt _ (by norm_num)
      set k := n % 10 with hk
      interval_cases k <;> decide
    unfold Fmt.natDigitsAux
    split
    · intro h
      rcases List.mem_cons.mp h with h | h
      · exact hd h.symm
      · exact hacc h
    · apply ih
      intro h
      rcases List.mem_cons.mp h with h | h
      · exact hd h.symm
      · exact hacc h

/-- C9: for base path `C:\Mach\GCode`, sanitized project name `My_Project`,
subroutine number `1100` and loop count `3`, the invocation line is
byte-for-byte `M98 (-C:\Mach\GCode\My_Project\1100.nc) L3`; and for every
base path, project name, number and count, neither the constructed
subroutine path nor the invocation line contains a forward slash. -/
theorem C9_subroutine_call_syntax (base proj : String) (num count : ℕ) :
    Fmt.generate_subroutine_call
        (Subr.build_subroutine_path "C:\\Mach\\GCode" "My_Project" 1100) 3 =
      "M98 (-C:\\Mach\\GCode\\My_Project\\1100.nc) L3" ∧
    '/' ∉ (Subr.build_subroutine_path base proj num).data ∧
    '/' ∉ (Fmt.generate_subroutine_call (Subr.build_subroutine_path base proj num)
      count).data := by
  refine ⟨by decide, replaceSlash_no_slash _, ?_⟩
  intro h
  simp only [Fmt.generate_subroutine_call, String.data_append] at h
  rcases List.mem_append.mp h with h | h
  · rcases List.mem_append.mp h with h | h
    · rcases List.mem_append.mp h with h | h
      · exact absurd h (by decide)
      · exact replaceSlash_no_slash _ h
    · exact absurd h (by decide)
  · exact natDigitsAux_no_slash _ _ _ (by simp) h

/-- `scanFree` returns its start immediately when the start is unused. -/
theorem scanFree_start_free (existing : List ℕ) (start fuel : ℕ)
    (hs : start ∉ existing) (hf : fuel ≠ 0) :
    Subr.scanFree existing start fuel = some start := by
  cases fuel with
  | zero => exact absurd rfl hf
  | succ fuel => simp [Subr.scanFree, hs]

/-- `scanFree` finds nothing when every candidate is used. -/
theorem scanFree_exhausted (existing : List ℕ) :
    ∀ (fuel start : ℕ), (∀ k < fuel, start + k ∈ existing) →
      Subr.scanFree existing start fuel = none := by
  intro fuel
  induction fuel with
  | zero => intro start _; rfl
  | succ fuel ih =>
    intro start h
    have h0 : start ∈ existing := by simpa using h 0 (Nat.succ_pos _)
    simp only [Subr.scanFree, h0, if_pos]
    exact ih (start + 1) fun k hk => by
      have := h (k + 1) (by omega)
      simpa [Nat.add_assoc, Nat.add_comm 1 k] using this

/-- `scanFree` skips a used prefix and returns the first free candidate. -/
theorem scanFree_skip (existing : List ℕ) :
    ∀ (fuel start target : ℕ), start ≤ target → target < start + fuel →
      (∀ m, start ≤ m → m < target → m ∈ existing) → target ∉ existing →
      Subr.scanFree existing start fuel = some target := by
  intro fuel
  induction fuel with
  | zero => intro start target h1 h2 _ _; omega
  | succ fuel ih =>
    intro start target h1 h2 hpre htf
    by_cases hst : start = target
    · subst hst
      simp [Subr.scanFree, htf]
    · have hlt : start < target := lt_of_le_of_ne h1 hst
      have hmem : start ∈ existing := hpre start le_rfl hlt
      simp only [Subr.scanFree, hmem, if_pos]
      exact ih (start + 1) target (by omega) (by omega)
        (fun m hm1 hm2 => hpre m (by omega) hm2) htf

/-- A block of `n` same-kind allocations, starting from a state where
`[s, su)` of the kind's range is used and `[su, e]` is free, takes the
numbers `su, su+1, …` in order. -/
theorem allocate_replicate_block (k : String) (s e : ℕ)
    (hr : Subr.SUBROUTINE_RANGES k = (s, e)) :
    ∀ (n : ℕ) (su : ℕ) (used : List ℕ) (rest : List String),
      su + n ≤ e + 1 → s ≤ su →
      (∀ m, s ≤ m → m < su → m ∈ used) →
      (∀ m, su ≤ m → m ≤ e → m ∉ used) →
      Subr.allocate_subroutine_numbers (List.replicate n k ++ rest) used =
        (List.range' su n).map (fun x => (k, x)) ++
          Subr.allocate_subroutine_numbers rest (used ++ List.range' su n) := by
  intro n
  induction n with
  | zero => intro su used rest _ _ _ _; simp
  | succ n ih =>
    intro su used rest hcap hs hpre hfree
    have hsu_le : su ≤ e := by omega
    have hget : Subr.get_next_subroutine_number k used = su := by
      unfold Subr.get_next_subroutine_number
      simp only [hr]
      rw [scanFree_skip used (e + 1 - s) s su hs (by omega)
        (fun m hm1 hm2 => hpre m hm1 hm2) (hfree su le_rfl hsu_le)]
    have step : Subr.allocate_subroutine_numbers (List.replicate (n + 1) k ++ rest) used =
        (k, su) :: Subr.allocate_subroutine_numbers (List.replicate n k ++ rest)
          (used ++ [su]) := by
      rw [List.replicate_succ, List.cons_append]
      simp only [Subr.allocate_subroutine_numbers, hget]
    rw [step, ih (su + 1) (used ++ [su]) rest (by omega) (by omega)
      (fun m hm1 hm2 => by
        rcases Nat.lt_succ_iff_lt_or_eq.mp hm2 with h | h
        · exact List.mem_append_left _ (hpre m hm1 h)
        · exact List.mem_append_right _ (by simp [h]))
      (fun m hm1 hm2 => by
        intro hmem
        rcases List.mem_append.mp hmem with h | h
        · exact hfree m (by omega) hm2 h
        · simp only [List.mem_singleton] at h
          omega)]
    rw [List.range'_succ]
    simp [List.append_assoc]

/-- Strictly ascending ranges. -/
theorem pairwise_lt_range' : ∀ (n s : ℕ), (List.range' s n).Pairwise (· < ·) := by
  intro n
  induction n with
  | zero => intro s; simp
  | succ n ih =>
    intro s
    rw [List.range'_succ]
    refine List.Pairwise.cons ?_ (ih (s + 1))
    intro m hm
    have := (List.mem_range'_1.mp hm).1
    omega

/-- The closed form of one generation's allocations when no kind exceeds its
range capacity of 100. -/
theorem generation_numbers_eq (d c h l : ℕ)
    (hd : d ≤ 100) (hc : c ≤ 100) (hh : h ≤ 100) (hl : l ≤ 100) :
    Subr.generation_numbers d c h l =
      (List.range' 1000 d).map (fun x => ("drill", x)) ++
      ((List.range' 1100 c).map (fun x => ("circular", x)) ++
       ((List.range' 1200 h).map (fun x => ("hexagonal", x)) ++
        (List.range' 1300 l).map (fun x => ("line", x)))) := by
  unfold Subr.generation_numbers
  simp only [List.append_assoc]
  rw [allocate_replicate_block "drill" 1000 1099 rfl d 1000 [] _ (by omega) le_rfl
    (by omega) (by simp)]
  congr 1
  rw [allocate_replicate_block "circular" 1100 1199 rfl c 1100 _ _ (by omega) le_rfl
    (by omega) (fun m hm1 hm2 hmem => by
      simp only [List.nil_append, List.mem_range'_1] at hmem
      omega)]
  congr 1
  rw [allocate_replicate_block "hexagonal" 1200 1299 rfl h 1200 _ _ (by omega) le_rfl
    (by omega) (fun m hm1 hm2 hmem => by
      simp only [List.nil_append, List.mem_append, List.mem_range'_1] at hmem
      omega)]
  congr 1
  rw [show List.replicate l "line" = List.replicate l "line" ++ ([] : List String) from
    (List.append_nil _).symm]
  rw [allocate_replicate_block "line" 1300 1399 rfl l 1300 _ _ (by omega) le_rfl
    (by omega) (fun m hm1 hm2 hmem => by
      simp only [List.nil_append, List.append_assoc, List.mem_append,
        List.mem_range'_1] at hmem
      omega)]
  simp [Subr.allocate_subroutine_numbers]

/-- The assigned numbers of one capped generation are globally ascending. -/
theorem generation_numbers_pairwise (d c h l : ℕ)
    (hd : d ≤ 100) (hc : c ≤ 100) (hh : h ≤ 100) (hl : l ≤ 100) :
    ((Subr.generation_numbers d c h l).map Prod.snd).Pairwise (· < ·) := by
  rw [generation_numbers_eq d c h l hd hc hh hl]
  simp only [List.map_append, List.map_map]
  have hsnd : ∀ (k : String) (r : List ℕ),
      List.map (Prod.snd ∘ fun x => (k, x)) r = r := by
    intro k r
    have hcomp : (Prod.snd ∘ fun x : ℕ => (k, x)) = id := rfl
    rw [hcomp, List.map_id]
  rw [hsnd, hsnd, hsnd, hsnd]
  rw [List.pairwise_append]
  refine ⟨pairwise_lt_range' _ _, ?_, ?_⟩
  · rw [List.pairwise_append]
    refine ⟨pairwise_lt_range' _ _, ?_, ?_⟩
    · rw [List.pairwise_append]
      refine ⟨pairwise_lt_range' _ _, pairwise_lt_range' _ _, ?_⟩
      intro a ha b hb
      have := (List.mem_range'_1.mp ha).2
      have := (List.mem_range'_1.mp hb).1
      omega
    · intro a ha b hb
      have := (List.mem_range'_1.mp ha).2
      rcases List.mem_append.mp hb with hb | hb <;>
        { have := (List.mem_range'_1.mp hb).1; omega }
  · intro a ha b hb
    have := (List.mem_range'_1.mp ha).2
    rcases List.mem_append.mp hb with hb | hb
    · have := (List.mem_range'_1.mp hb).1; omega
    · rcases List.mem_append.mp hb with hb | hb <;>
        { have := (List.mem_range'_1.mp hb).1; omega }

/-- When the whole range is used, `get_next_subroutine_number` overflows to
`end + 1`. -/
theorem get_next_eq_of_scanFree_none (k : String) (used : List ℕ)
    (h : Subr.scanFree used (Subr.SUBROUTINE_RANGES k).1
      ((Subr.SUBROUTINE_RANGES k).2 + 1 - (Subr.SUBROUTINE_RANGES k).1) = none) :
    Subr.get_next_subroutine_number k used = (Subr.SUBROUTINE_RANGES k).2 + 1 := by
  unfold Subr.get_next_subroutine_number
  simp [h]

/-- C3 counterexample: a generation with 102 line cuts exhausts the line
range; the 101st and 102nd line subroutines both receive number 1400, which
lies outside the declared range [1300, 1399] and is moreover shared — so the
claim's "for any number of operations of each kind" fails. -/
theorem C3_subroutine_numbering_counterexample :
    Subr.generation_numbers 0 0 0 102 =
      (List.range' 1300 100).map (fun x => ("line", x)) ++
        [("line", 1400), ("line", 1400)] ∧
    ¬ ((Subr.generation_numbers 0 0 0 102).map Prod.snd).Nodup ∧
    ("line", 1400) ∈ Subr.generation_numbers 0 0 0 102 ∧
    ¬ ((1400 : ℕ) ≤ (Subr.SUBROUTINE_RANGES "line").2) := by
  have hform : Subr.generation_numbers 0 0 0 102 =
      (List.range' 1300 100).map (fun x => ("line", x)) ++
        [("line", 1400), ("line", 1400)] := by
    unfold Subr.generation_numbers
    have h102 : List.replicate 102 "line" =
        List.replicate 100 "line" ++ List.replicate 2 "line" := by
      rw [← List.replicate_add]
    simp only [List.replicate_zero, List.nil_append]
    rw [h102, allocate_replicate_block "line" 1300 1399 rfl 100 1300 [] _ (by omega)
      le_rfl (by omega) (by simp)]
    congr 1
  refine ⟨hform, ?_, ?_, by decide⟩
  · intro hnd
    rw [hform, List.map_append] at hnd
    have := (List.nodup_append.mp hnd).2.1
    simp at this
  · rw [hform]
    exact List.mem_append_right _ (by simp)

/-- C3 (amended): within any single generation in which each operation kind
allocates at most 100 subroutines (the capacity of its range), every
assigned number lies in the fixed disjoint range of its kind (drill
[1000,1099], circular [1100,1199], hexagonal [1200,1299], line [1300,1399]),
the numbers of each kind are assigned in ascending order, and no two
subroutines share a number; beyond 100 of one kind the source overflows to
`end + 1` with reuse, as the counterexample shows. -/
theorem C3_subroutine_numbering_amended (d c h l : ℕ)
    (hd : d ≤ 100) (hc : c ≤ 100) (hh : h ≤ 100) (hl : l ≤ 100) :
    (∀ pr ∈ Subr.generation_numbers d c h l,
      (Subr.SUBROUTINE_RANGES pr.1).1 ≤ pr.2 ∧
      pr.2 ≤ (Subr.SUBROUTINE_RANGES pr.1).2) ∧
    ((Subr.generation_numbers d c h l).map Prod.snd).Nodup ∧
    (∀ k : String,
      (((Subr.generation_numbers d c h l).filter
        (fun pr => pr.1 = k)).map Prod.snd).Pairwise (· < ·)) := by
  have hpair := generation_numbers_pairwise d c h l hd hc hh hl
  refine ⟨?_, ?_, ?_⟩
  · intro pr hpr
    rw [generation_numbers_eq d c h l hd hc hh hl] at hpr
    simp only [List.mem_append, List.mem_map, List.mem_range'_1] at hpr
    have r1 : Subr.SUBROUTINE_RANGES "drill" = (1000, 1099) := rfl
    have r2 : Subr.SUBROUTINE_RANGES "circular" = (1100, 1199) := rfl
    have r3 : Subr.SUBROUTINE_RANGES "hexagonal" = (1200, 1299) := rfl
    have r4 : Subr.SUBROUTINE_RANGES "line" = (1300, 1399) := rfl
    rcases hpr with ⟨x, hx, rfl⟩ | ⟨x, hx, rfl⟩ | ⟨x, hx, rfl⟩ | ⟨x, hx, rfl⟩
    · rw [r1]; constructor <;> [exact hx.1; omega]
    · rw [r2]; constructor <;> [exact hx.1; omega]
    · rw [r3]; constructor <;> [exact hx.1; omega]
    · rw [r4]; constructor <;> [exact hx.1; omega]
  · exact hpair.imp (fun hlt => Nat.ne_of_lt hlt)
  · intro k
    have hsub : (((Subr.generation_numbers d c h l).filter
        (fun pr => pr.1 = k)).map Prod.snd).Sublist
        ((Subr.generation_numbers d c h l).map Prod.snd) :=
      (List.filter_sublist _).map Prod.snd
    exact hpair.sublist hsub

/-- Witness for C3 (amended) at one subroutine of each kind: numbers
1000, 1100, 1200, 1300, all in range and distinct. -/
theorem C3_subroutine_numbering_amended_witness :
    Subr.generation_numbers 1 1 1 1 =
      [("drill", 1000), ("circular", 1100), ("hexagonal", 1200), ("line", 1300)] ∧
    ((Subr.generation_numbers 1 1 1 1).map Prod.snd).Nodup ∧
    (∀ pr ∈ Subr.generation_numbers 1 1 1 1,
      (Subr.SUBROUTINE_RANGES pr.1).1 ≤ pr.2 ∧
      pr.2 ≤ (Subr.SUBROUTINE_RANGES pr.1).2) := by
  have h := C3_subroutine_numbering_amended 1 1 1 1 (by norm_num) (by norm_num)
    (by norm_num) (by norm_num)
  refine ⟨?_, h.2.1, h.1⟩
  rw [generation_numbers_eq 1 1 1 1 (by norm_num) (by norm_num) (by norm_num)
    (by norm_num)]
  rfl

/-- The Z trace of a concatenation splits at the intermediate state. -/
theorem zTrace_append (l1 l2 : List Drill.DrillCmd) :
    ∀ st, Drill.zTrace st (l1 ++ l2) =
      Drill.zTrace st l1 ++ Drill.zTrace (Drill.runZ st l1) l2 := by
  induction l1 with
  | nil => intro st; simp [Drill.zTrace, Drill.runZ]
  | cons c cs ih =>
    intro st
    show (Drill.stepZ st c).2 :: Drill.zTrace (Drill.stepZ st c) (cs ++ l2) = _
    rw [ih]
    rfl

/-- In relative mode at the entry level, the peck loop's trace alternates
between the cumulative depth and the entry level `0`. -/
theorem zTrace_peckLines (plunge_rate : ℚ) :
    ∀ pecks : List ℚ,
      Drill.zTrace (true, 0) (Drill.peckLines plunge_rate pecks 0) =
        pecks.flatMap (fun p => [-p, 0]) ∧
      Drill.runZ (true, 0) (Drill.peckLines plunge_rate pecks 0) = (true, 0) := by
  intro pecks
  induction pecks with
  | nil => exact ⟨rfl, rfl⟩
  | cons p ps ih =>
    constructor
    · show (0 + -(p - 0)) :: (0 + -(p - 0) + p) ::
        Drill.zTrace (true, 0 + -(p - 0) + p) (Drill.peckLines plunge_rate ps 0) = _
      rw [show (0 : ℚ) + -(p - 0) + p = 0 by ring]
      rw [show (0 : ℚ) + -(p - 0) = -p by ring]
      simp only [List.flatMap_cons, List.cons_append]
      rw [ih.1]
      simp
    · show Drill.runZ (true, 0 + -(p - 0) + p) (Drill.peckLines plunge_rate ps 0) = _
      rw [show (0 : ℚ) + -(p - 0) + p = 0 by ring]
      exact ih.2

/-- In absolute mode, one inline peck block's trace visits the cumulative
depth, then the safety height, then (except after the last peck) `0`. -/
theorem zTrace_inlineBlock (plunge_rate safety_height last : ℚ) :
    ∀ (ps : List ℚ) (st : Bool × ℚ), st.1 = false →
      Drill.zTrace st (ps.flatMap fun p =>
        [.plungeZ (-p) plunge_rate, .rapidZ safety_height] ++
        (if p < last then [.rapidZ 0] else [])) =
        (ps.flatMap fun p => [-p, safety_height] ++ (if p < last then [0] else [])) ∧
      (Drill.runZ st (ps.flatMap fun p =>
        [.plungeZ (-p) plunge_rate, .rapidZ safety_height] ++
        (if p < last then [.rapidZ 0] else []))).1 = false := by
  intro ps
  induction ps with
  | nil => intro st hst; exact ⟨rfl, hst⟩
  | cons p rest ih =>
    intro st hst
    obtain ⟨rel, z⟩ := st
    simp only at hst
    subst hst
    by_cases hp : p < last
    · simp only [List.flatMap_cons, if_pos hp]
      constructor
      · show (-p) :: safety_height :: (0 : ℚ) ::
          Drill.zTrace ((false : Bool), (0 : ℚ)) (rest.flatMap _) = _
        rw [(ih ((false : Bool), (0 : ℚ)) rfl).1]
        simp
      · show (Drill.runZ ((false : Bool), (0 : ℚ)) (rest.flatMap _)).1 = false
        exact (ih ((false : Bool), (0 : ℚ)) rfl).2
    · simp only [List.flatMap_cons, if_neg hp]
      constructor
      · show (-p) :: safety_height ::
          Drill.zTrace ((false : Bool), safety_height) (rest.flatMap _) = _
        rw [(ih ((false : Bool), safety_height) rfl).1]
        simp
      · show (Drill.runZ ((false : Bool), safety_height) (rest.flatMap _)).1 = false
        exact (ih ((false : Bool), safety_height) rfl).2

/-- C6 counterexample: in the body of the peck-drill subroutine for pecks
`{0.04, 0.08}`, the retract after the first peck (the fourth emitted motion)
returns to the `Z0` entry level, not to the safety height (here `0.5`);
indeed `generate_peck_drill_subroutine` receives no safety height at all. -/
theorem C6_peck_retract_counterexample :
    (Drill.zTrace ((false : Bool), (1 : ℚ)/2)
      (Drill.generate_peck_drill_subroutine [1/25, 2/25] 5 (1/4) "x" (1/2))).get? 3 =
      some 0 ∧
    (0 : ℚ) ≠ 1/2 := by
  constructor
  · show ((0 : ℚ) :: (0 : ℚ) :: Drill.zTrace ((true : Bool), (0 : ℚ))
      (Drill.peckLines 5 [1/25, 2/25] 0 ++ _)).get? 3 = some 0
    rw [zTrace_append, (zTrace_peckLines 5 [1/25, 2/25]).1]
    rfl
  · norm_num

/-- The inline drilling trace, for any starting height, in absolute mode. -/
theorem zTrace_inline (pecks : List ℚ) (plunge_rate travel_height safety_height : ℚ) :
    ∀ (points : List (ℚ × ℚ)) (z : ℚ),
      Drill.zTrace ((false : Bool), z)
        (Drill.generate_drill_inline points plunge_rate travel_height safety_height
          pecks) =
        points.flatMap (fun _ =>
          [travel_height, 0] ++ pecks.flatMap (fun p =>
            [-p, safety_height] ++ (if p < pecks.getLastD 0 then [0] else []))) := by
  intro points
  induction points with
  | nil => intro z; rfl
  | cons pt rest ih =>
    intro z
    simp only [Drill.generate_drill_inline, List.flatMap_cons] at ih ⊢
    rw [List.append_assoc]
    show travel_height :: (0 : ℚ) :: Drill.zTrace ((false : Bool), (0 : ℚ))
      (Drill.inlinePeckBlock pecks plunge_rate safety_height ++
        rest.flatMap fun pt =>
          [Drill.DrillCmd.rapidXY pt.1 pt.2 travel_height, Drill.DrillCmd.rapidZ 0] ++
            Drill.inlinePeckBlock pecks plunge_rate safety_height) = _
    rw [zTrace_append]
    have hblk := zTrace_inlineBlock plunge_rate safety_height (pecks.getLastD 0)
      pecks ((false : Bool), (0 : ℚ)) rfl
    have hb1 : Drill.zTrace ((false : Bool), (0 : ℚ))
        (Drill.inlinePeckBlock pecks plunge_rate safety_height) =
        pecks.flatMap (fun p =>
          [-p, safety_height] ++ (if p < pecks.getLastD 0 then [0] else [])) := hblk.1
    have hb2 : (Drill.runZ ((false : Bool), (0 : ℚ))
        (Drill.inlinePeckBlock pecks plunge_rate safety_height)).1 = false := hblk.2
    rw [hb1]
    have hrw : Drill.runZ ((false : Bool), (0 : ℚ))
        (Drill.inlinePeckBlock pecks plunge_rate safety_height) =
        ((false : Bool), (Drill.runZ ((false : Bool), (0 : ℚ))
          (Drill.inlinePeckBlock pecks plunge_rate safety_height)).2) :=
      Prod.ext_iff.mpr ⟨hb2, rfl⟩
    rw [hrw, ih]
    simp

/-- C6 (amended): in the inline drilling emission each peck descends to its
cumulative depth and the tool retracts to the safety height before the next
peck begins; in the body of the peck-drill subroutine each peck descends to
its cumulative depth below the `Z0` entry level and the tool retracts to
that entry level (the material top) — not the safety height — with a final
retract to the travel height before the pattern translate. -/
theorem C6_peck_retract_amended (pecks : List ℚ) (points : List (ℚ × ℚ))
    (plunge_rate travel_height safety_height spacing z0 : ℚ) (axis : String) :
    Drill.zTrace ((false : Bool), z0)
      (Drill.generate_drill_inline points plunge_rate travel_height safety_height pecks) =
      points.flatMap (fun _ =>
        [travel_height, 0] ++ pecks.flatMap (fun p =>
          [-p, safety_height] ++ (if p < pecks.getLastD 0 then [0] else []))) ∧
    Drill.zTrace ((false : Bool), z0)
      (Drill.generate_peck_drill_subroutine pecks plunge_rate travel_height axis spacing) =
      [0, 0] ++ pecks.flatMap (fun p => [-p, 0]) ++
        [travel_height, travel_height, travel_height] := by
  refine ⟨zTrace_inline pecks plunge_rate travel_height safety_height points z0, ?_⟩
  unfold Drill.generate_peck_drill_subroutine
  show (0 : ℚ) :: (0 : ℚ) :: Drill.zTrace ((true : Bool), (0 : ℚ))
    (Drill.peckLines plunge_rate pecks 0 ++ _) = _
  rw [zTrace_append, (zTrace_peckLines plunge_rate pecks).1,
    (zTrace_peckLines plunge_rate pecks).2]
  by_cases hax : axis.toLower = "x" <;>
    simp [hax, Drill.zTrace, Drill.stepZ]

/-- The annotation loop pairs the point at each index with the dict lookup at
that (shifted) index. -/
theorem annotate_get? (corners : List (ℕ × ℝ)) (base : ℝ) :
    ∀ (l : List Corner.CPoint) (k j : ℕ),
      (Corner.annotate corners base k l).get? j =
        (l.get? j).map fun p => (p, Corner.cornerFactor corners base (k + j)) := by
  intro l
  induction l with
  | nil => intro k j; rfl
  | cons p ps ih =>
    intro k j
    cases j with
    | zero => rfl
    | succ j =>
      show (Corner.annotate corners base (k + 1) ps).get? j = _
      rw [ih (k + 1) j]
      have : k + 1 + j = k + (j + 1) := by omega
      rw [this]
      rfl

/-- `find?` over a `filterMap` of an index range, when the emitted pairs
carry their own index, is the generator applied at the queried index. -/
theorem find?_filterMap_range' (g : ℕ → Option (ℕ × ℝ))
    (hg : ∀ j p, g j = some p → p.1 = j) :
    ∀ (n s i : ℕ), s ≤ i → i < s + n →
      ((List.range' s n).filterMap g).find? (fun c => c.1 = i) = g i := by
  intro n
  induction n with
  | zero => intro s i h1 h2; omega
  | succ n ih =>
    intro s i h1 h2
    rw [List.range'_succ, List.filterMap_cons]
    by_cases hsi : i = s
    · subst hsi
      cases hgs : g i with
      | none =>
        apply List.find?_eq_none.mpr
        intro p hp
        obtain ⟨a, ha, hpa⟩ := List.mem_filterMap.mp hp
        have hai := hg a p hpa
        have := (List.mem_range'_1.mp ha).1
        simp only [decide_eq_true_eq]
        omega
      | some p =>
        have hp1 : p.1 = i := hg i p hgs
        rw [List.find?_cons_of_pos _ (by simp [hp1])]
    · have hlt : s < i := lt_of_le_of_ne h1 (fun h => hsi h.symm)
      cases hgs : g s with
      | none => exact ih (s + 1) i (by omega) (by omega)
      | some p =>
        have hp1 : p.1 = s := hg s p hgs
        rw [List.find?_cons_of_neg _ (by simp [hp1]; omega)]
        exact ih (s + 1) i (by omega) (by omega)

/-- The corner list lookup at an interior index is exactly the thresholded
angle test there. -/
theorem identify_corners_find? (path : List Corner.CPoint) (θ : ℝ) (i : ℕ)
    (h3 : 3 ≤ path.length) (h1 : 1 ≤ i) (h2 : i < path.length - 1) :
    (Corner.identify_corners path θ).find? (fun c => c.1 = i) =
      (if Corner.cornerAngleAt path i < θ then
        some (i, Corner.cornerAngleAt path i) else none) := by
  unfold Corner.identify_corners
  rw [if_neg (by omega)]
  rw [find?_filterMap_range'
    (fun j => if Corner.cornerAngleAt path j < θ then
      some (j, Corner.cornerAngleAt path j) else none)
    (fun j p hp => by
      simp only at hp
      split at hp
      · rw [← Option.some_inj.mp hp]
      · exact absurd hp (by simp))
    (path.length - 2) 1 i h1 (by omega)]

/-- A below-threshold interior angle puts its index into the corner list. -/
theorem identify_corners_mem (path : List Corner.CPoint) (θ : ℝ) (i : ℕ)
    (h3 : 3 ≤ path.length) (h1 : 1 ≤ i) (h2 : i < path.length - 1)
    (hlt : Corner.cornerAngleAt path i < θ) :
    (i, Corner.cornerAngleAt path i) ∈ Corner.identify_corners path θ := by
  unfold Corner.identify_corners
  rw [if_neg (by omega)]
  refine List.mem_filterMap.mpr ⟨i, ?_, ?_⟩
  · rw [List.mem_range'_1]
    omega
  · rw [if_pos hlt]

/-- The measured angle at the middle point of `(0,0), (0,0), (1,0)`: the
degenerate incoming segment contributes the default direction `(1, 0)`, the
outgoing direction is `(1, 0)`, so the angle is `0°` — not a neutral `180°`. -/
theorem cornerAngleAt_degenerate_path :
    Corner.cornerAngleAt
      [⟨0, 0, "straight", none, none⟩, ⟨0, 0, "straight", none, none⟩,
       ⟨1, 0, "straight", none, none⟩] 1 = 0 := by
  have hin : Corner.incomingDir (⟨0, 0, "straight", none, none⟩ : Corner.CPoint)
      ⟨0, 0, "straight", none, none⟩ = (1, 0) := by
    unfold Corner.incomingDir Corner.calculate_direction_vector Corner.pointXY
    norm_num [Real.sqrt_zero]
  have hout : Corner.outgoingDir (⟨0, 0, "straight", none, none⟩ : Corner.CPoint)
      ⟨1, 0, "straight", none, none⟩ = (1, 0) := by
    unfold Corner.outgoingDir Corner.calculate_direction_vector Corner.pointXY
    norm_num [Real.sqrt_one]
  unfold Corner.cornerAngleAt
  simp only [List.getD, List.get?, Option.getD_some]
  rw [hin, hout]
  unfold Corner.angle_between_vectors
  norm_num [Real.arccos_one]

/-- C8 counterexample: on the path `(0,0), (0,0), (1,0)` — whose middle point
is bounded by a degenerate segment — the annotated corner feed factor at the
middle point is `base * 0.30 = 0.15` (the default direction `(1,0)` yields a
`0°` reading flagged as a very sharp corner), not the `1.0` the claim
requires. -/
theorem C8_degenerate_counterexample :
    (Corner.generate_corner_slowdown_points
      [⟨0, 0, "straight", none, none⟩, ⟨0, 0, "straight", none, none⟩,
       ⟨1, 0, "straight", none, none⟩] 120 (1/2)).map Prod.snd = [1, 3/20, 1] ∧
    (3 : ℝ)/20 ≠ 1 := by
  constructor
  · have hang := cornerAngleAt_degenerate_path
    have hid : Corner.identify_corners
        [⟨0, 0, "straight", none, none⟩, ⟨0, 0, "straight", none, none⟩,
         ⟨1, 0, "straight", none, none⟩] 120 = [(1, (0 : ℝ))] := by
      unfold Corner.identify_corners
      rw [if_neg (by decide)]
      show List.filterMap _ [1] = _
      rw [List.filterMap_cons, hang, if_pos (by norm_num : (0 : ℝ) < 120)]
      rfl
    simp only [Corner.generate_corner_slowdown_points]
    rw [if_neg (by decide), hid, if_neg (by simp)]
    simp only [Corner.annotate, Corner.cornerFactor, List.map_cons, List.map_nil]
    norm_num [List.find?, Corner.calculate_corner_feed_factor]
  · norm_num

/-- C8 (amended): for every line path, the corner detector annotates each
interior point with the feed factor determined by the angle between the
incoming and outgoing direction vectors — `1.0` at or above the `120°`
threshold, otherwise the table value (`≥90° → 0.75`, `≥60° → 0.50`,
`≥30° → 0.40`, else `0.30`, per `calculate_corner_feed_factor`) scaled by
the global corner factor — where a degenerate adjacent segment
(length `< 10⁻⁴`) contributes the fixed default direction `(1, 0)` rather
than a neutral `180°` reading, so a point bounded by a degenerate segment
can be flagged as a sharp corner. -/
theorem C8_corner_factor_amended (path : List Corner.CPoint) (θ base : ℝ)
    (h3 : 3 ≤ path.length) (i : ℕ) (h1 : 1 ≤ i) (h2 : i < path.length - 1) :
    (Corner.generate_corner_slowdown_points path θ base).get? i =
      (path.get? i).map fun p =>
        (p, if Corner.cornerAngleAt path i < θ then
              base * Corner.calculate_corner_feed_factor (Corner.cornerAngleAt path i)
            else 1) := by
  simp only [Corner.generate_corner_slowdown_points]
  rw [if_neg (by omega)]
  by_cases hemp : (Corner.identify_corners path θ).isEmpty
  · rw [if_pos hemp]
    have hnot : ¬ Corner.cornerAngleAt path i < θ := by
      intro hlt
      have hmem := identify_corners_mem path θ i h3 h1 h2 hlt
      rw [List.isEmpty_iff] at hemp
      rw [hemp] at hmem
      exact absurd hmem (List.not_mem_nil _)
    rw [if_neg (by simpa using hnot)]
    simp [List.get?_eq_getElem?, List.getElem?_map]
  · rw [if_neg hemp, annotate_get? _ _ path 0 i]
    simp only [Nat.zero_add]
    unfold Corner.cornerFactor
    rw [identify_corners_find? path θ i h3 h1 h2]
    by_cases hlt : Corner.cornerAngleAt path i < θ
    · rw [if_pos hlt]
      simp [hlt]
    · rw [if_neg hlt]
      simp [hlt]

/-- Witness for C8 (amended) on the straight path `(0,0), (1,0), (2,0)`:
the interior point's direction-vector angle is `0°`, below the `120°`
threshold, so its annotated factor is `0.5 × 0.30 = 0.15`. -/
theorem C8_corner_factor_amended_witness :
    (Corner.generate_corner_slowdown_points
      [⟨0, 0, "straight", none, none⟩, ⟨1, 0, "straight", none, none⟩,
       ⟨2, 0, "straight", none, none⟩] 120 (1/2)).get? 1 =
      some (⟨1, 0, "straight", none, none⟩, 3/20) := by
  have hang : Corner.cornerAngleAt
      [⟨0, 0, "straight", none, none⟩, ⟨1, 0, "straight", none, none⟩,
       ⟨2, 0, "straight", none, none⟩] 1 = 0 := by
    have hin : Corner.incomingDir (⟨0, 0, "straight", none, none⟩ : Corner.CPoint)
        ⟨1, 0, "straight", none, none⟩ = (1, 0) := by
      unfold Corner.incomingDir Corner.calculate_direction_vector Corner.pointXY
      norm_num [Real.sqrt_one]
    have hout : Corner.outgoingDir (⟨1, 0, "straight", none, none⟩ : Corner.CPoint)
        ⟨2, 0, "straight", none, none⟩ = (1, 0) := by
      unfold Corner.outgoingDir Corner.calculate_direction_vector Corner.pointXY
      norm_num [Real.sqrt_one]
    unfold Corner.cornerAngleAt
    simp only [List.getD, List.get?, Option.getD_some]
    rw [hin, hout]
    unfold Corner.angle_between_vectors
    norm_num [Real.arccos_one]
  have h := C8_corner_factor_amended
    [⟨0, 0, "straight", none, none⟩, ⟨1, 0, "straight", none, none⟩,
     ⟨2, 0, "straight", none, none⟩] 120 (1/2) (by decide) 1 (by norm_num) (by decide)
  rw [h, hang]
  rw [if_pos (by norm_num : (0 : ℝ) < 120)]
  norm_num [Corner.calculate_corner_feed_factor]

set_option maxRecDepth 8000 in
/-- C4: the worked scenario — sheet stock of thickness 0.25, end mill of
diameter 0.125, pass depth 0.05, one interior circle of diameter 1.0 centered
at (5,5) with helical lead-in and subroutines.  The cut radius is 0.4375, the
helix radius is min(0.4375 − 0.025, 0.0625 + 0.025) = 0.0875, there are
5 passes, the main program rapids to (5.0875, 5) at travel height, descends
to Z0 and calls subroutine 1100 with L5, and the subroutine body performs the
helical descent (G00 Z0; G91; full-turn G02 arcs with Z descent; G90), the
transition arc from helix radius to cut radius, the full circle
G02 I-0.4375 J0, and the lead-out arc back to the helix start, before M99. -/
theorem C4_interior_circle_scenario :
    Circle.calculate_cut_radius 1 (1/8) "interior" = 7/16 ∧
    LeadIn.calculate_helix_radius_for_circle (7/16) (1/8) (1/40) = some (7/80) ∧
    (7 : ℚ)/80 = min ((7:ℚ)/16 - 1/40) (1/16 + 1/40) ∧
    Multipass.calculate_num_passes (1/4) (1/20) = 5 ∧
    Circle.generate_circular_gcode_auto
      ⟨1/8, some (1/20), 8, 45, 1/4, 1/10, 1/2, 1/25, 1, "helical",
       "C:\\Mach\\GCode", "My_Project"⟩
      [⟨5, 5, 1, some "interior", none⟩] [] [] =
      ⟨[1100], [],
       ["G00 X5.0875 Y5.0000 Z0.1000", "G00 Z0.0000",
        "M98 (-C:\\Mach\\GCode\\My_Project\\1100.nc) L5", "G00 Z0.5000"],
       [(1100,
         ["G00 Z0", "G91",
          "G02 X0.0000 Y0.0000 Z-0.0250 I-0.0875 J0.0000 F26.5",
          "G02 X0.0000 Y0.0000 Z-0.0250 I-0.0875 J0.0000 F35.8",
          "G90", "G91",
          "G02 X0.3500 Y0.0000 I-0.0875 J0.0000 F45.0", "G90",
          "G02 I-0.4375 J0.0000 F45.0", "G91",
          "G02 X-0.3500 Y0.0000 I-0.4375 J0.0000 F45.0", "G90",
          "M99", "%"])]⟩ := by
  refine ⟨?_, ?_, ?_, ?_, ?_⟩ <;> with_unfolding_all rfl



theorem c2_sqrt2_gt_one : (1 : ℝ) < Real.sqrt 2 := by
  nlinarith [Real.sq_sqrt (show (0:ℝ) ≤ 2 by norm_num), Real.sqrt_nonneg 2]

theorem c2_sqrt25 : Real.sqrt 25 = 5 := by
  rw [show (25:ℝ) = 5 ^ 2 by norm_num, Real.sqrt_sq (by norm_num : (0:ℝ) ≤ 5)]

theorem c2_sqrt4 : Real.sqrt 4 = 2 := by
  rw [show (4:ℝ) = 2 ^ 2 by norm_num, Real.sqrt_sq (by norm_num : (0:ℝ) ≤ 2)]

theorem c2_atan2_up : Comp.atan2 3 0 = Real.pi / 2 := by
  unfold Comp.atan2
  exact Complex.arg_eq_pi_div_two_iff.mpr ⟨rfl, by norm_num⟩

theorem c2_atan2_left : Comp.atan2 0 (-3) = Real.pi := by
  unfold Comp.atan2
  exact Complex.arg_eq_pi_iff.mpr ⟨by norm_num, rfl⟩

theorem c2_cos_mid : Real.cos ((Real.pi / 2 + Real.pi) / 2) = -(Real.sqrt 2 / 2) := by
  rw [show (Real.pi / 2 + Real.pi) / 2 = Real.pi - Real.pi / 4 by ring, Real.cos_pi_sub,
    Real.cos_pi_div_four]

theorem c2_sin_mid : Real.sin ((Real.pi / 2 + Real.pi) / 2) = Real.sqrt 2 / 2 := by
  rw [show (Real.pi / 2 + Real.pi) / 2 = Real.pi - Real.pi / 4 by ring, Real.sin_pi_sub,
    Real.sin_pi_div_four]

open Comp in
theorem c2_seg0 :
    Comp.offsetSegAt
      [⟨-4, 0, none, none, none, none⟩,
       ⟨0, 3, some "straight", none, none, none⟩,
       ⟨-3, 0, some "arc", some 0, some 0, some "ccw"⟩] 3 false (1/2) (1/2) "exterior" 0 =
      some (.straight (-(43/10), 2/5) (-(3/10), 17/5)
        ⟨0, 3, some "straight", none, none, none⟩) := by
  simp only [Comp.offsetSegAt, Comp.segSource, Comp.xy, Comp.offset_line_segment,
    Comp.calculate_line_normal]
  norm_num [List.getD, c2_sqrt25]
  exact fun h => absurd h (by decide)

open Comp in
theorem c2_seg1 :
    Comp.offsetSegAt
      [⟨-4, 0, none, none, none, none⟩,
       ⟨0, 3, some "straight", none, none, none⟩,
       ⟨-3, 0, some "arc", some 0, some 0, some "ccw"⟩] 3 false (1/2) (1/2) "exterior" 1 =
      some (.arc (0, 5/2) (-(5/2), 0) 0
        ⟨-3, 0, some "arc", some 0, some 0, some "ccw"⟩) := by
  simp only [Comp.offsetSegAt, Comp.segSource, Comp.xy]
  norm_num [List.getD]
  have h9 : Real.sqrt 9 = 3 := by
    rw [show (9:ℝ) = 3 ^ 2 by norm_num, Real.sqrt_sq (by norm_num : (0:ℝ) ≤ 3)]
  have h2 := c2_sqrt2_gt_one
  simp only [c2_atan2_up, c2_atan2_left, show Comp.lowerStr "ccw" = "ccw" from rfl]
  have hnp : ¬(Real.pi < Real.pi / 2) := by linarith [Real.pi_pos]
  have hncw : ("ccw" : String) ≠ "cw" := by decide
  simp only [hnp, hncw, ite_false, if_false]
  simp only [c2_cos_mid, c2_sin_mid, h9]
  split_ifs with hC
  · exfalso; nlinarith
  · rw [show |(1/2 : ℝ)| = 1/2 from abs_of_nonneg (by norm_num)]
    norm_num

theorem c2_closed :
    decide (Comp.is_path_closed
      [⟨-4, 0, none, none, none, none⟩,
       ⟨0, 3, some "straight", none, none, none⟩,
       ⟨-3, 0, some "arc", some 0, some 0, some "ccw"⟩]) = false := by
  apply decide_eq_false
  intro h
  obtain ⟨-, h1, -⟩ := h
  norm_num [List.getD, List.getLastD, Comp.dfltPoint] at h1

theorem c2_winding :
    Comp.calculate_path_winding
      [⟨-4, 0, none, none, none, none⟩,
       ⟨0, 3, some "straight", none, none, none⟩,
       ⟨-3, 0, some "arc", some 0, some 0, some "ccw"⟩] = -(3/2) := by
  simp only [Comp.calculate_path_winding]
  norm_num [List.range_succ, List.getD, Comp.dfltPoint]

theorem c2_off : Comp.compOffset (1/2) (-(3/2)) "exterior" = 1/2 := by
  simp only [Comp.compOffset]
  norm_num

open Comp in
theorem c2_segs :
    Comp.offsetSegments
      [⟨-4, 0, none, none, none, none⟩,
       ⟨0, 3, some "straight", none, none, none⟩,
       ⟨-3, 0, some "arc", some 0, some 0, some "ccw"⟩] 1 "exterior" =
      some [.straight (-(43/10), 2/5) (-(3/10), 17/5)
              ⟨0, 3, some "straight", none, none, none⟩,
            .arc (0, 5/2) (-(5/2), 0) 0
              ⟨-3, 0, some "arc", some 0, some 0, some "ccw"⟩] := by
  simp only [Comp.offsetSegments, c2_closed, c2_winding, c2_off]
  norm_num [List.range_succ]
  simp only [List.mapM.loop, c2_seg0, c2_seg1, Option.bind_eq_bind, Option.some_bind,
    Option.pure_def, List.reverse_cons, List.reverse_nil, List.nil_append, List.cons_append]



open Comp in
theorem c2_joint :
    Comp.jointPoints
      (.straight (-(43/10), 2/5) (-(3/10), 17/5) ⟨0, 3, some "straight", none, none, none⟩)
      (.arc (0, 5/2) (-(5/2), 0) 0 ⟨-3, 0, some "arc", some 0, some 0, some "ccw"⟩)
      ⟨0, 3, some "straight", none, none, none⟩ =
      [⟨0, 5/2, some "straight", none, none, none⟩] := by
  have hsq : Real.sqrt 25 / Real.sqrt 4 * (Real.sqrt 25 / Real.sqrt 4) = 25/4 := by
    rw [c2_sqrt25, c2_sqrt4]; norm_num
  have h254 : Real.sqrt (25/4) * Real.sqrt (25/4) = 25/4 := Real.mul_self_sqrt (by norm_num)
  simp only [Comp.jointPoints, Comp.calculate_line_circle_intersection, Comp.setXY]
  norm_num [hsq, h254]

open Comp in
theorem c2_stitch :
    Comp.stitch
      [.straight (-(43/10), 2/5) (-(3/10), 17/5) ⟨0, 3, some "straight", none, none, none⟩,
       .arc (0, 5/2) (-(5/2), 0) 0 ⟨-3, 0, some "arc", some 0, some 0, some "ccw"⟩]
      [⟨-4, 0, none, none, none, none⟩,
       ⟨0, 3, some "straight", none, none, none⟩,
       ⟨-3, 0, some "arc", some 0, some 0, some "ccw"⟩] false =
      [⟨-(43/10), 2/5, none, none, none, none⟩,
       ⟨0, 5/2, some "straight", none, none, none⟩,
       ⟨-(5/2), 0, some "arc", some 0, some 0, some "ccw"⟩] := by
  simp only [Comp.stitch, Comp.firstPoint, Comp.setXY, Comp.OffSeg.source,
    Comp.OffSeg.startP, Comp.OffSeg.endP]
  norm_num [List.range_succ, List.getD, c2_joint]

open Comp in
theorem c2_full :
    Comp.compensate_line_path
      [⟨-4, 0, none, none, none, none⟩,
       ⟨0, 3, some "straight", none, none, none⟩,
       ⟨-3, 0, some "arc", some 0, some 0, some "ccw"⟩] 1 "exterior" =
      some [⟨-(43/10), 2/5, none, none, none, none⟩,
            ⟨0, 5/2, some "straight", none, none, none⟩,
            ⟨-(5/2), 0, some "arc", some 0, some 0, some "ccw"⟩] := by
  simp only [Comp.compensate_line_path, c2_closed, c2_segs]
  norm_num [c2_stitch]
  decide

open Comp in
theorem c2_dist :
    Comp.distToLine (0, 5/2) (-4, 0) (0, 3) = 2/5 := by
  simp only [Comp.distToLine]
  norm_num [c2_sqrt25]



open Comp in
theorem c2_distToLine_offset_param (p1 p2 : ℝ × ℝ) (offset t : ℝ) (h : p1 ≠ p2) :
    Comp.distToLine
      ((Comp.offset_line_segment p1 p2 offset).1.1 + t * (p2.1 - p1.1),
       (Comp.offset_line_segment p1 p2 offset).1.2 + t * (p2.2 - p1.2)) p1 p2 = |offset| := by
  have hd : p2.1 - p1.1 ≠ 0 ∨ p2.2 - p1.2 ≠ 0 := by
    by_contra hc
    push_neg at hc
    exact h (Prod.ext (by linarith [hc.1]) (by linarith [hc.2])).symm
  have hpos : 0 < (p2.1 - p1.1) * (p2.1 - p1.1) + (p2.2 - p1.2) * (p2.2 - p1.2) := by
    rcases hd with h1 | h1
    · nlinarith [mul_self_pos.mpr h1, mul_self_nonneg (p2.2 - p1.2)]
    · nlinarith [mul_self_pos.mpr h1, mul_self_nonneg (p2.1 - p1.1)]
  have hL : 0 < Real.sqrt ((p2.1 - p1.1) * (p2.1 - p1.1) + (p2.2 - p1.2) * (p2.2 - p1.2)) :=
    Real.sqrt_pos.mpr hpos
  have hLL : Real.sqrt ((p2.1 - p1.1) * (p2.1 - p1.1) + (p2.2 - p1.2) * (p2.2 - p1.2)) *
      Real.sqrt ((p2.1 - p1.1) * (p2.1 - p1.1) + (p2.2 - p1.2) * (p2.2 - p1.2)) =
      (p2.1 - p1.1) * (p2.1 - p1.1) + (p2.2 - p1.2) * (p2.2 - p1.2) :=
    Real.mul_self_sqrt hpos.le
  have hB : Real.sqrt ((p2.1 - p1.1) ^ 2 + (p2.2 - p1.2) ^ 2) =
      Real.sqrt ((p2.1 - p1.1) * (p2.1 - p1.1) + (p2.2 - p1.2) * (p2.2 - p1.2)) := by
    rw [show (p2.1 - p1.1) ^ 2 + (p2.2 - p1.2) ^ 2 =
      (p2.1 - p1.1) * (p2.1 - p1.1) + (p2.2 - p1.2) * (p2.2 - p1.2) by ring]
  simp only [Comp.distToLine, Comp.offset_line_segment, Comp.calculate_line_normal]
  rw [if_neg hL.ne', hB, div_eq_iff hL.ne']
  rw [show |offset| * Real.sqrt ((p2.1 - p1.1) * (p2.1 - p1.1) + (p2.2 - p1.2) * (p2.2 - p1.2)) =
      |offset * Real.sqrt ((p2.1 - p1.1) * (p2.1 - p1.1) + (p2.2 - p1.2) * (p2.2 - p1.2))| from by
    rw [abs_mul, abs_of_pos hL]]
  congr 1
  field_simp
  linear_combination (-offset) * Real.sq_sqrt hpos.le



open Comp in
open Comp in
open Comp in
/-- C2 (amended): for every non-degenerate source segment and signed offset,
both endpoints produced by offset_line_segment lie at perpendicular distance
exactly abs(offset) from the source segment line, and every joint produced by
a successful line-line or line-circle intersection on that offset segment also
lies at distance abs(offset); the signed offset chosen by compensate_line_path
has magnitude tool_radius (= tool.diameter / 2).  The original claim fails
only for the fallback joints taken when a line-circle intersection misses. -/
theorem C2_offset_on_line_amended (p1 p2 : ℝ × ℝ) (offset : ℝ) (h : p1 ≠ p2) :
    Comp.distToLine (Comp.offset_line_segment p1 p2 offset).1 p1 p2 = |offset| ∧
    Comp.distToLine (Comp.offset_line_segment p1 p2 offset).2 p1 p2 = |offset| ∧
    (∀ a b z, Comp.calculate_line_intersection (Comp.offset_line_segment p1 p2 offset).1
        (Comp.offset_line_segment p1 p2 offset).2 a b = some z →
      Comp.distToLine z p1 p2 = |offset|) ∧
    (∀ c r pref z, Comp.calculate_line_circle_intersection
        (Comp.offset_line_segment p1 p2 offset).1
        (Comp.offset_line_segment p1 p2 offset).2 c r pref = some z →
      Comp.distToLine z p1 p2 = |offset|) ∧
    (∀ tr w ct, 0 ≤ tr → |Comp.compOffset tr w ct| = tr) := by
  have hdx : (Comp.offset_line_segment p1 p2 offset).2.1 -
      (Comp.offset_line_segment p1 p2 offset).1.1 = p2.1 - p1.1 := by
    simp only [Comp.offset_line_segment]
    ring
  have hdy : (Comp.offset_line_segment p1 p2 offset).2.2 -
      (Comp.offset_line_segment p1 p2 offset).1.2 = p2.2 - p1.2 := by
    simp only [Comp.offset_line_segment]
    ring
  refine ⟨?_, ?_, ?_, ?_, ?_⟩
  · have h0 := c2_distToLine_offset_param p1 p2 offset 0 h
    simpa using h0
  · have h1 := c2_distToLine_offset_param p1 p2 offset 1 h
    rw [show (Comp.offset_line_segment p1 p2 offset).2 =
        ((Comp.offset_line_segment p1 p2 offset).1.1 + 1 * (p2.1 - p1.1),
         (Comp.offset_line_segment p1 p2 offset).1.2 + 1 * (p2.2 - p1.2)) from by
      simp only [Comp.offset_line_segment]
      exact Prod.ext (by ring) (by ring)]
    exact h1
  · intro a b z hz
    simp only [Comp.calculate_line_intersection] at hz
    rw [hdx, hdy] at hz
    split_ifs at hz
    obtain rfl := Option.some.inj hz
    exact c2_distToLine_offset_param p1 p2 offset _ h
  · intro c r pref z hz
    simp only [Comp.calculate_line_circle_intersection] at hz
    rw [hdx, hdy] at hz
    split_ifs at hz
    · obtain rfl := Option.some.inj hz
      exact c2_distToLine_offset_param p1 p2 offset _ h
    · obtain rfl := Option.some.inj hz
      exact c2_distToLine_offset_param p1 p2 offset _ h
  · intro tr w ct htr
    simp only [Comp.compOffset]
    split_ifs <;> simp [abs_neg, abs_of_nonneg htr]

/-- C2 (amended, witness): the segment (0,0)-(1,0) offset by 1/2, and the
line-line joint with the vertical line x = 1, are at distance |1/2| from the
source line. -/
theorem C2_offset_on_line_amended_witness :
    ((0, 0) : ℝ × ℝ) ≠ (1, 0) ∧
    Comp.distToLine (Comp.offset_line_segment (0, 0) (1, 0) (1/2)).1 (0, 0) (1, 0) =
      |(1/2 : ℝ)| ∧
    Comp.calculate_line_intersection (Comp.offset_line_segment (0, 0) (1, 0) (1/2)).1
      (Comp.offset_line_segment (0, 0) (1, 0) (1/2)).2 (1, -1) (1, 1) = some (1, 1/2) ∧
    Comp.distToLine (1, 1/2) (0, 0) (1, 0) = |(1/2 : ℝ)| := by
  have hne : ((0, 0) : ℝ × ℝ) ≠ (1, 0) := by
    intro he
    exact absurd (congrArg Prod.fst he) (by norm_num)
  have hseg : Comp.offset_line_segment (0, 0) (1, 0) (1/2) = ((0, 1/2), (1, 1/2)) := by
    simp only [Comp.offset_line_segment, Comp.calculate_line_normal]
    norm_num [Real.sqrt_one]
  have hint : Comp.calculate_line_intersection (Comp.offset_line_segment (0, 0) (1, 0) (1/2)).1
      (Comp.offset_line_segment (0, 0) (1, 0) (1/2)).2 (1, -1) (1, 1) = some (1, 1/2) := by
    rw [hseg]
    simp only [Comp.calculate_line_intersection]
    norm_num
  exact ⟨hne, (C2_offset_on_line_amended (0, 0) (1, 0) (1/2) hne).1, hint,
    (C2_offset_on_line_amended (0, 0) (1, 0) (1/2) hne).2.2.1 (1, -1) (1, 1) (1, 1/2) hint⟩

/-- C2 (counterexample): on the open path (-4,0) -> (0,3) -> ccw arc to
(-3,0) about (0,0) with tool diameter 1 and exterior compensation, the offset
line y-side of the straight segment misses the shrunk offset-arc circle
(discriminant -216), so compensate_line_path falls back to the arc offset
start (0, 5/2) as the joint; that output point of the compensated straight
segment lies at distance 2/5 from the source segment line, and
|1/2 - 2/5| = 1/10 exceeds the 10^-6 tolerance the claim allows. -/
theorem C2_offset_distance_counterexample :
    Comp.compensate_line_path
      [⟨-4, 0, none, none, none, none⟩,
       ⟨0, 3, some "straight", none, none, none⟩,
       ⟨-3, 0, some "arc", some 0, some 0, some "ccw"⟩] 1 "exterior" =
      some [⟨-(43/10), 2/5, none, none, none, none⟩,
            ⟨0, 5/2, some "straight", none, none, none⟩,
            ⟨-(5/2), 0, some "arc", some 0, some 0, some "ccw"⟩] ∧
    Comp.distToLine (0, 5/2) (-4, 0) (0, 3) = 2/5 ∧
    (1/1000000 : ℝ) < |(1/2 : ℝ) - 2/5| := by
  refine ⟨c2_full, c2_dist, ?_⟩
  rw [show (1/2 : ℝ) - 2/5 = 1/10 by norm_num]
  rw [abs_of_nonneg (by norm_num : (0:ℝ) ≤ 1/10)]
  norm_num

end Gpro
